import Mathlib

/-!
Shallow embedding of the server core of the B3-Decentapp repository:
the Cross-Device Identity Recovery service (`recoveryService` + recovery
routes) and the Dead Man's Switch service (`dmsService` + dms routes).

Redis state is modelled as explicit functional stores; hash records become
structures, Redis sets become duplicate-free lists, times are naturals
(epoch milliseconds), and TTLs are the literal second counts the code
passes to the store adapter.  External collaborators (Ed25519 signature
verification, the on-chain username registry, the Arweave blob store) are
parameters of the route functions.
-/

namespace Spec2Proof

/-- JavaScript `String.prototype.startsWith`: character-prefix test. -/
def jsStartsWith (s pre : String) : Bool :=
  pre.data.isPrefixOf s.data

/-- Contiguous-sublist test on character lists. -/
def charsInfix (p : List Char) : List Char → Bool
  | [] => p.isPrefixOf []
  | c :: rest => p.isPrefixOf (c :: rest) || charsInfix p rest

/-- JavaScript `String.prototype.includes`: case-sensitive substring test. -/
def jsIncludes (s sub : String) : Bool :=
  charsInfix sub.data s.data

/-- JavaScript `s.replace("local:", "")` as used in the sweep: it runs under a
`startsWith("local:")` guard, where replacing the first occurrence is exactly
dropping the six-character prefix. -/
def jsDropLocal (s : String) : String :=
  if jsStartsWith s "local:" then ⟨s.data.drop 6⟩ else s

/-- Pointwise update of a one-key map. -/
def upd1 {α : Type} (f : String → Option α) (k : String) (v : Option α) :
    String → Option α :=
  fun x => if x = k then v else f x

/-- Pointwise update of a two-key map. -/
def upd2 {α : Type} (f : String → String → Option α) (k1 k2 : String)
    (v : Option α) : String → String → Option α :=
  fun a b => if a = k1 ∧ b = k2 then v else f a b

-- ─── Recovery service data model (recoveryService.ts) ───

/-- Status field of a recovery session. -/
inductive SessionStatus where
  | pending
  | ready
  | expired
deriving DecidableEq, Repr

/-- The string the service stores for a status (used in error messages). -/
def sessionStatusStr : SessionStatus → String
  | .pending => "pending"
  | .ready => "ready"
  | .expired => "expired"

/-- `recovery:config:{owner}` hash. `guardianPubkeys` is stored JSON-encoded
in Redis; the JSON round trip on a string list is the identity, so it is
modelled as the list itself. -/
structure RecoveryConfig where
  ownerPubkey : String
  threshold : Nat
  guardianPubkeys : List String
  createdAt : Nat
deriving DecidableEq, Repr

/-- `recovery:share:{guardian}:{owner}` hash. -/
structure GuardianShare where
  encryptedShare : String
  ownerPubkey : String
  shareIndex : Nat
  createdAt : Nat
deriving DecidableEq, Repr

/-- `recovery:session:{sessionId}` hash. -/
structure RecoverySession where
  sessionId : String
  ownerPubkey : String
  ephemeralPubkey : String
  status : SessionStatus
  approvals : Nat
  threshold : Nat
  guardianPubkeys : List String
  createdAt : Nat
deriving DecidableEq, Repr

/-- One entry of the `guardians` array of a distribute request. -/
structure GuardianInput where
  pubkey : String
  encryptedShare : String
  shareIndex : Nat
deriving DecidableEq, Repr

/-- The Redis keyspace the recovery service uses, with the key patterns
`recovery:config:{owner}`, `recovery:share:{guardian}:{owner}`,
`recovery:session:{sid}` and `recovery:session:{sid}:share:{guardian}`
replaced by structured keys (pubkeys are base58 and session ids are UUIDs,
neither contains a colon, so the translation is exact). -/
structure RecoveryStore where
  configs : String → Option RecoveryConfig
  shares : String → String → Option GuardianShare
  sessions : String → Option RecoverySession
  sessionShares : String → String → Option String

/-- The store with no keys. -/
def emptyRecovery : RecoveryStore where
  configs := fun _ => none
  shares := fun _ _ => none
  sessions := fun _ => none
  sessionShares := fun _ _ => none

-- ─── Recovery service operations ───

/-- The share-writing loop of `distributeShares`. -/
def putShares (ownerPubkey : String) (now : Nat) :
    List GuardianInput → RecoveryStore → RecoveryStore
  | [], s => s
  | g :: rest, s =>
      putShares ownerPubkey now rest
        { s with
            shares := upd2 s.shares g.pubkey ownerPubkey
              (some { encryptedShare := g.encryptedShare
                      ownerPubkey := ownerPubkey
                      shareIndex := g.shareIndex
                      createdAt := now }) }

/-- `distributeShares`: store the config hash, then one share hash per
guardian. -/
def distributeShares (st : RecoveryStore) (ownerPubkey : String)
    (threshold : Nat) (guardians : List GuardianInput) (now : Nat) :
    RecoveryStore :=
  let cfg : RecoveryConfig :=
    { ownerPubkey := ownerPubkey
      threshold := threshold
      guardianPubkeys := guardians.map (fun g => g.pubkey)
      createdAt := now }
  putShares ownerPubkey now guardians
    { st with configs := upd1 st.configs ownerPubkey (some cfg) }

/-- `getRecoveryConfig`: `null` when the hash is absent or its `ownerPubkey`
field is falsy (the empty string). -/
def getRecoveryConfig (st : RecoveryStore) (ownerPubkey : String) :
    Option RecoveryConfig :=
  match st.configs ownerPubkey with
  | none => none
  | some c => if c.ownerPubkey = "" then none else some c

/-- The share-deleting loop of `revokeShares`. -/
def delShares (ownerPubkey : String) :
    List String → RecoveryStore → RecoveryStore
  | [], s => s
  | g :: rest, s =>
      delShares ownerPubkey rest
        { s with shares := upd2 s.shares g ownerPubkey none }

/-- `revokeShares`: read the config, delete each listed share hash, delete
the config hash. -/
def revokeShares (st : RecoveryStore) (ownerPubkey : String) : RecoveryStore :=
  let st1 :=
    match getRecoveryConfig st ownerPubkey with
    | some cfg => delShares ownerPubkey cfg.guardianPubkeys st
    | none => st
  { st1 with configs := upd1 st1.configs ownerPubkey none }

/-- `getSession`: `null` when the hash is absent or its `sessionId` field is
falsy. -/
def getSession (st : RecoveryStore) (sessionId : String) :
    Option RecoverySession :=
  match st.sessions sessionId with
  | none => none
  | some s => if s.sessionId = "" then none else some s

/-- `createSession`: requires a config; every requested guardian must appear
in the configured guardian list; writes a pending session (24h TTL). The
fresh UUID is passed in as `sessionId`. -/
def createSession (st : RecoveryStore) (ownerPubkey ephemeralPubkey : String)
    (requestedGuardians : List String) (sessionId : String) (now : Nat) :
    Except String (RecoverySession × RecoveryStore) :=
  match getRecoveryConfig st ownerPubkey with
  | none => .error "No recovery config found for this identity"
  | some cfg =>
      match requestedGuardians.find? (fun g => !(cfg.guardianPubkeys.contains g)) with
      | some g => .error (g ++ " is not a guardian for this identity")
      | none =>
          let session : RecoverySession :=
            { sessionId := sessionId
              ownerPubkey := ownerPubkey
              ephemeralPubkey := ephemeralPubkey
              status := .pending
              approvals := 0
              threshold := cfg.threshold
              guardianPubkeys := requestedGuardians
              createdAt := now }
          .ok (session,
            { st with sessions := upd1 st.sessions sessionId (some session) })

/-- Result object of a successful `approveSession`. -/
structure ApproveResult where
  approved : Bool
  approvalsReceived : Nat
  thresholdRequired : Nat
deriving DecidableEq, Repr

/-- JavaScript truthiness of a `string | null` value. -/
def truthyStr : Option String → Bool
  | some s => s != ""
  | none => false

/-- `approveSession`: only pending sessions accept approvals; the guardian
must be in the session's guardian list; a truthy existing session share means
"already approved"; otherwise store the re-encrypted share, bump the counter,
and flip the status to ready at the threshold. -/
def approveSession (st : RecoveryStore) (sessionId guardianPubkey reEncryptedShare : String) :
    Except String (ApproveResult × RecoveryStore) :=
  match getSession st sessionId with
  | none => .error "Session not found or expired"
  | some session =>
      if session.status ≠ .pending then
        .error ("Session is " ++ sessionStatusStr session.status)
      else if ¬ session.guardianPubkeys.contains guardianPubkey then
        .error "Not a valid guardian for this session"
      else if truthyStr (st.sessionShares sessionId guardianPubkey) then
        .error "Guardian already approved this session"
      else
        let st1 :=
          { st with
              sessionShares :=
                upd2 st.sessionShares sessionId guardianPubkey (some reEncryptedShare) }
        let newCount := session.approvals + 1
        let session' :=
          if newCount ≥ session.threshold then
            { session with approvals := newCount, status := .ready }
          else
            { session with approvals := newCount }
        let st2 := { st1 with sessions := upd1 st1.sessions sessionId (some session') }
        .ok ({ approved := true
               approvalsReceived := newCount
               thresholdRequired := session.threshold }, st2)

/-- `getReleasedShares`: only ready sessions; collects the truthy session
shares of the session's guardians in list order. -/
def getReleasedShares (st : RecoveryStore) (sessionId : String) :
    Except String (List (String × String)) :=
  match getSession st sessionId with
  | none => .error "Session not found or expired"
  | some session =>
      if session.status ≠ .ready then
        .error "Session not ready — more approvals needed"
      else
        .ok (session.guardianPubkeys.filterMap
          (fun g =>
            match st.sessionShares sessionId g with
            | some s => if s = "" then none else some (g, s)
            | none => none))

-- ─── Recovery routes (routes/recovery.ts) ───

/-- The approve route's catch-block mapping from a thrown error message to an
HTTP status, with JavaScript's case-sensitive `includes`. -/
def approveErrorStatus (msg : String) : Nat :=
  if jsIncludes msg "not found" || jsIncludes msg "expired" then 404
  else if jsIncludes msg "already approved" then 409
  else if jsIncludes msg "not a valid guardian" then 403
  else 500

/-- `POST /session/:sessionId/approve`. Signature verification is an external
collaborator, abstracted as `sigOk`; missing-field checks are JavaScript
truthiness checks on the body fields. -/
def approveRoute (st : RecoveryStore)
    (sessionId guardianPubkey reEncryptedShare signature : String)
    (timestamp : Nat) (sigOk : Bool) : Nat × RecoveryStore :=
  if guardianPubkey = "" ∨ reEncryptedShare = "" ∨ signature = "" ∨ timestamp = 0 then
    (400, st)
  else if ¬ sigOk then (403, st)
  else
    match approveSession st sessionId guardianPubkey reEncryptedShare with
    | .ok (_, st') => (200, st')
    | .error msg => (approveErrorStatus msg, st)

/-- `POST /distribute`: field truthiness, threshold and count checks, auth,
then revoke-and-redistribute. No check whatever is made on the `shareIndex`
values. -/
def distributeRoute (st : RecoveryStore) (senderPubkey : String)
    (threshold : Nat) (guardians : List GuardianInput) (signature : String)
    (timestamp : Nat) (sigOk : Bool) (now : Nat) : Nat × RecoveryStore :=
  if senderPubkey = "" ∨ threshold = 0 then (400, st)
  else if threshold < 2 then (400, st)
  else if guardians.length < threshold then (400, st)
  else if guardians.length > 10 then (400, st)
  else if signature = "" ∨ timestamp = 0 then (401, st)
  else if ¬ sigOk then (403, st)
  else
    let st1 := revokeShares st senderPubkey
    (200, distributeShares st1 senderPubkey threshold guardians now)

/-- `DELETE /revoke`: field truthiness, auth, then `revokeShares`; always
answers `{success: true}` (HTTP 200) past the auth checks. -/
def revokeRoute (st : RecoveryStore) (senderPubkey signature : String)
    (timestamp : Nat) (sigOk : Bool) : Nat × RecoveryStore :=
  if senderPubkey = "" ∨ signature = "" ∨ timestamp = 0 then (400, st)
  else if ¬ sigOk then (403, st)
  else (200, revokeShares st senderPubkey)

-- ─── DMS service data model (dmsService.ts) ───

/-- Status field of a dead man's switch. -/
inductive DMSStatus where
  | active
  | triggered
  | cancelled
deriving DecidableEq, Repr

/-- `dms:switch:{switchId}` hash. `nextDeadline`, `createdAt` and
`triggeredAt` are ISO-8601 instants in Redis; same-length ISO strings compare
lexicographically exactly as their instants, so they are modelled as epoch
milliseconds. -/
structure DMSSwitch where
  switchId : String
  senderPubkey : String
  recipientUsername : String
  arweaveTxId : String
  intervalHours : Nat
  nextDeadline : Nat
  status : DMSStatus
  createdAt : Nat
  triggeredAt : Option Nat
deriving DecidableEq, Repr

/-- Request payload of `createSwitch`. -/
structure DMSSwitchInput where
  senderPubkey : String
  recipientUsername : String
  arweaveTxId : String
  intervalHours : Nat
deriving DecidableEq, Repr

/-- The JSON release record the sweep stores at `dms:release:{switchId}`. -/
structure ReleaseRecord where
  type : String
  switchId : String
  senderPubkey : String
  recipientUsername : String
  encryptedMessage : String
  triggeredAt : Nat
deriving DecidableEq, Repr

/-- A value held by `storeMessageBlob`: either a raw ciphertext string (the
local fallback payloads) or the JSON serialization of a release record;
`JSON.stringify` is injective on release records, so the serialization is
kept structured. -/
inductive BlobVal where
  | str (s : String)
  | release (r : ReleaseRecord)
deriving DecidableEq, Repr

/-- The DMS keyspace: `dms:switch:{id}` hashes, the `dms:user:{pubkey}` and
`dms:active` Redis sets (duplicate-free lists), and the string blobs written
through `storeMessageBlob` (`dms:{localId}` fallback payloads and
`dms:release:{switchId}` release records), each paired with the TTL in
seconds it was stored with. -/
structure DMSStore where
  switches : String → Option DMSSwitch
  userIndex : String → List String
  activeIndex : List String
  blobs : String → Option (BlobVal × Nat)

/-- The store with no keys. -/
def emptyDMS : DMSStore where
  switches := fun _ => none
  userIndex := fun _ => []
  activeIndex := []
  blobs := fun _ => none

/-- Redis `SADD` on a modelled set. -/
def saddList (l : List String) (x : String) : List String :=
  if l.contains x then l else l ++ [x]

/-- Redis `SREM` on a modelled set. -/
def sremList (l : List String) (x : String) : List String :=
  l.filter (fun y => y ≠ x)

-- ─── DMS service operations ───

/-- `createSwitch`: build the record with `nextDeadline = now + hours` and
add the id to the owner's set and the active set. The fresh UUID is passed
in as `switchId`. -/
def createSwitch (st : DMSStore) (input : DMSSwitchInput) (switchId : String)
    (now : Nat) : DMSSwitch × DMSStore :=
  let record : DMSSwitch :=
    { switchId := switchId
      senderPubkey := input.senderPubkey
      recipientUsername := input.recipientUsername
      arweaveTxId := input.arweaveTxId
      intervalHours := input.intervalHours
      nextDeadline := now + input.intervalHours * 3600000
      status := .active
      createdAt := now
      triggeredAt := none }
  (record,
    { st with
        switches := upd1 st.switches switchId (some record)
        userIndex := fun p =>
          if p = input.senderPubkey then saddList (st.userIndex p) switchId
          else st.userIndex p
        activeIndex := saddList st.activeIndex switchId })

/-- `getSwitch`: `null` when the hash is absent or its `switchId` field is
falsy. -/
def getSwitch (st : DMSStore) (switchId : String) : Option DMSSwitch :=
  match st.switches switchId with
  | none => none
  | some sw => if sw.switchId = "" then none else some sw

/-- `getUserSwitches`: load every id in the user's set, dropping ids whose
record is missing. -/
def getUserSwitches (st : DMSStore) (pubkey : String) : List DMSSwitch :=
  (st.userIndex pubkey).filterMap (getSwitch st)

/-- The per-switch hash update of the check-in loop: rewrite `nextDeadline`
of the record stored under `sw.switchId` to `now` plus the snapshot's own
interval. -/
def bumpGo (now : Nat) : List DMSSwitch → DMSStore → DMSStore
  | [], s => s
  | sw :: rest, s =>
      bumpGo now rest
        { s with
            switches := upd1 s.switches sw.switchId
              ((s.switches sw.switchId).map
                (fun w => { w with nextDeadline := now + sw.intervalHours * 3600000 })) }

/-- The `latestDeadline` accumulator of the check-in loop: replace the
accumulator when it is unset or the new deadline compares greater. -/
def latestGo (now : Nat) : List DMSSwitch → Option Nat → Option Nat
  | [], acc => acc
  | sw :: rest, acc =>
      let d := now + sw.intervalHours * 3600000
      latestGo now rest
        (match acc with
         | none => some d
         | some m => if d > m then some d else some m)

/-- Result object of `refreshDeadlines`. -/
structure RefreshResult where
  count : Nat
  nextDeadline : Option Nat
deriving DecidableEq, Repr

/-- `refreshDeadlines`: take the snapshot of the user's switches, keep the
active ones, rewrite each deadline, and report the count and the latest
bumped deadline. -/
def refreshDeadlines (st : DMSStore) (pubkey : String) (now : Nat) :
    RefreshResult × DMSStore :=
  let snapshot := getUserSwitches st pubkey
  let active := snapshot.filter (fun s => s.status == DMSStatus.active)
  ({ count := active.length, nextDeadline := latestGo now active none },
    bumpGo now active st)

/-- `cancelSwitch`: `false` when the record is missing or owned by someone
else; otherwise set `status = cancelled` and remove the id from the active
set and from the requester's set. -/
def cancelSwitch (st : DMSStore) (switchId requesterPubkey : String) :
    Bool × DMSStore :=
  match getSwitch st switchId with
  | none => (false, st)
  | some sw =>
      if sw.senderPubkey ≠ requesterPubkey then (false, st)
      else
        (true,
          { st with
              switches := upd1 st.switches switchId
                ((st.switches switchId).map (fun w => { w with status := .cancelled }))
              activeIndex := sremList st.activeIndex switchId
              userIndex := fun p =>
                if p = requesterPubkey then sremList (st.userIndex p) switchId
                else st.userIndex p })

/-- `markTriggered`: set `status = triggered`, stamp `triggeredAt`, and
remove the id from the active set only. -/
def markTriggered (st : DMSStore) (switchId : String) (now : Nat) : DMSStore :=
  { st with
      switches := upd1 st.switches switchId
        ((st.switches switchId).map
          (fun w => { w with status := .triggered, triggeredAt := some now }))
      activeIndex := sremList st.activeIndex switchId }

/-- The scan loop of `getOverdueSwitches` over the snapshot of the active
set: garbage-collect missing or non-active entries from the active set,
collect records with `nextDeadline < now`. -/
def godsGo (now : Nat) : List String → DMSStore → List DMSSwitch × DMSStore
  | [], s => ([], s)
  | id :: ids, s =>
      match getSwitch s id with
      | none => godsGo now ids { s with activeIndex := sremList s.activeIndex id }
      | some sw =>
          if sw.status ≠ .active then
            godsGo now ids { s with activeIndex := sremList s.activeIndex id }
          else if sw.nextDeadline < now then
            (sw :: (godsGo now ids s).1, (godsGo now ids s).2)
          else godsGo now ids s

/-- `getOverdueSwitches`. -/
def getOverdueSwitches (st : DMSStore) (now : Nat) :
    List DMSSwitch × DMSStore :=
  godsGo now st.activeIndex st

-- ─── DMS routes (routes/dms.ts) ───

/-- The payload fetch of the sweep: handles beginning with `local:` read the
fallback blob at `dms:{localId}` through `getMessageContent`; other handles
are fetched from the external blob store, abstracted as `extFetch`. A
release-record blob under the key would come back as its JSON text; no
fallback id collides with a release key, and the claims never reach that
case, so it is collapsed to a fetch failure. -/
def fetchPayload (st : DMSStore) (extFetch : String → Option String)
    (txId : String) : Option String :=
  if jsStartsWith txId "local:" then
    match st.blobs ("dms:" ++ jsDropLocal txId) with
    | some (BlobVal.str s, _) => some s
    | _ => none
  else extFetch txId

/-- The release-record write of the sweep: `storeMessageBlob` at
`dms:release:{switchId}` with a 90-day TTL. -/
def storeRelease (st : DMSStore) (sw : DMSSwitch) (payload : String)
    (now : Nat) : DMSStore :=
  { st with
      blobs := upd1 st.blobs ("dms:release:" ++ sw.switchId)
        (some (BlobVal.release
          { type := "dms_release"
            switchId := sw.switchId
            senderPubkey := sw.senderPubkey
            recipientUsername := sw.recipientUsername
            encryptedMessage := payload
            triggeredAt := now }, 90 * 24 * 60 * 60)) }

/-- The per-switch loop of `POST /process`: resolve the recipient (external
collaborator `resolveUser`), fetch the payload (dropping falsy payloads),
write the release record, then `markTriggered`; failures append an error and
continue. Returns the processed ids, the errors, and the final store. -/
def sweepGo (resolveUser : String → Bool) (extFetch : String → Option String)
    (now : Nat) : List DMSSwitch → DMSStore → List String × List String × DMSStore
  | [], s => ([], [], s)
  | sw :: rest, s =>
      if ¬ resolveUser sw.recipientUsername then
        ((sweepGo resolveUser extFetch now rest s).1,
          (sw.switchId ++ ": recipient not found") ::
            (sweepGo resolveUser extFetch now rest s).2.1,
          (sweepGo resolveUser extFetch now rest s).2.2)
      else
        match fetchPayload s extFetch sw.arweaveTxId with
        | none =>
            ((sweepGo resolveUser extFetch now rest s).1,
              (sw.switchId ++ ": could not retrieve encrypted payload") ::
                (sweepGo resolveUser extFetch now rest s).2.1,
              (sweepGo resolveUser extFetch now rest s).2.2)
        | some payload =>
            if payload = "" then
              ((sweepGo resolveUser extFetch now rest s).1,
                (sw.switchId ++ ": could not retrieve encrypted payload") ::
                  (sweepGo resolveUser extFetch now rest s).2.1,
                (sweepGo resolveUser extFetch now rest s).2.2)
            else
              (sw.switchId ::
                  (sweepGo resolveUser extFetch now rest
                    (markTriggered (storeRelease s sw payload now) sw.switchId now)).1,
                (sweepGo resolveUser extFetch now rest
                  (markTriggered (storeRelease s sw payload now) sw.switchId now)).2.1,
                (sweepGo resolveUser extFetch now rest
                  (markTriggered (storeRelease s sw payload now) sw.switchId now)).2.2)

/-- Summary object of `POST /process`. -/
structure SweepOutcome where
  processedIds : List String
  total : Nat
  errors : List String
deriving DecidableEq, Repr

/-- `POST /process` past the cron-secret check: scan the active set for
overdue switches and process each one. -/
def processSweep (st : DMSStore) (resolveUser : String → Bool)
    (extFetch : String → Option String) (now : Nat) :
    SweepOutcome × DMSStore :=
  ({ processedIds :=
       (sweepGo resolveUser extFetch now (getOverdueSwitches st now).1
         (getOverdueSwitches st now).2).1,
     total := (getOverdueSwitches st now).1.length,
     errors :=
       (sweepGo resolveUser extFetch now (getOverdueSwitches st now).1
         (getOverdueSwitches st now).2).2.1 },
    (sweepGo resolveUser extFetch now (getOverdueSwitches st now).1
      (getOverdueSwitches st now).2).2.2)

/-- `POST /create` after body destructuring: JavaScript truthiness checks on
the fields, the interval range check, auth (`sigOk` abstracts
`verifySignature`), the on-chain recipient check (`recipExists` abstracts
`getUserAccount`), then the Arweave upload (`uploadResult` is its outcome,
`none` meaning the upload threw); on failure the ciphertext is stored at
`dms:{fid}` with a 1-year TTL and the handle becomes `local:{fid}`. Returns
the HTTP status and the new store. -/
def createRoute (st : DMSStore) (recipientUsername encryptedMessage : String)
    (checkInIntervalHours : Nat) (senderPubkey signature : String)
    (timestamp : Nat) (sigOk recipExists : Bool) (uploadResult : Option String)
    (fid switchId : String) (now : Nat) : Nat × DMSStore :=
  if recipientUsername = "" ∨ encryptedMessage = "" ∨ checkInIntervalHours = 0 ∨
      senderPubkey = "" then (400, st)
  else if checkInIntervalHours < 1 ∨ checkInIntervalHours > 8760 then (400, st)
  else if signature = "" ∨ timestamp = 0 then (401, st)
  else if ¬ sigOk then (403, st)
  else if ¬ recipExists then (404, st)
  else
    match uploadResult with
    | some txId =>
        (200, (createSwitch st
          { senderPubkey := senderPubkey
            recipientUsername := recipientUsername
            arweaveTxId := txId
            intervalHours := checkInIntervalHours } switchId now).2)
    | none =>
        (200, (createSwitch
          { st with
              blobs := upd1 st.blobs ("dms:" ++ fid)
                (some (BlobVal.str encryptedMessage, 365 * 24 * 60 * 60)) }
          { senderPubkey := senderPubkey
            recipientUsername := recipientUsername
            arweaveTxId := "local:" ++ fid
            intervalHours := checkInIntervalHours } switchId now).2)

/-- `DELETE /:switchId`: truthiness checks, auth, then `cancelSwitch`; 404
when the service reports failure. -/
def cancelRoute (st : DMSStore) (switchId senderPubkey signature : String)
    (timestamp : Nat) (sigOk : Bool) : Nat × DMSStore :=
  if senderPubkey = "" ∨ signature = "" ∨ timestamp = 0 then (400, st)
  else if ¬ sigOk then (403, st)
  else if (cancelSwitch st switchId senderPubkey).1 then
    (200, (cancelSwitch st switchId senderPubkey).2)
  else (404, (cancelSwitch st switchId senderPubkey).2)

-- ─── State predicates ───

/-- Every stored switch hash sits under its own (non-empty, UUID) switch id;
this holds in every state the service itself builds, since `createSwitch` is
the only writer of new switch hashes. -/
def WellKeyed (st : DMSStore) : Prop :=
  ∀ k sw, st.switches k = some sw → sw.switchId = k ∧ sw.switchId ≠ ""

/-- The index invariant exactly as the specification states it (I5): an
active switch is in both sets, a switch in any other status is in neither. -/
def IndexInvariant (st : DMSStore) : Prop :=
  ∀ k sw, st.switches k = some sw →
    ((sw.status = .active → k ∈ st.activeIndex ∧ k ∈ st.userIndex sw.senderPubkey) ∧
     (sw.status ≠ .active → k ∉ st.activeIndex ∧ k ∉ st.userIndex sw.senderPubkey))

/-- The index invariant the code actually maintains: an active switch is in
both sets and a non-active switch is out of the active set, but only
cancellation removes the id from the owner's set — triggered switches stay
in it (the owner's history). -/
def IndexInvariantAmended (st : DMSStore) : Prop :=
  ∀ k sw, st.switches k = some sw →
    ((sw.status = .active → k ∈ st.activeIndex ∧ k ∈ st.userIndex sw.senderPubkey) ∧
     (sw.status ≠ .active → k ∉ st.activeIndex))

/-- What the sweep guarantees for a switch it counted as processed: the
stored hash is triggered, the id is out of the active set, and a release
record built from the switch's own fields sits under `dms:release:{id}` with
the 90-day TTL. -/
def SweepGood (s : DMSStore) (sw : DMSSwitch) (now : Nat) : Prop :=
  (∃ w, s.switches sw.switchId = some w ∧ w.status = .triggered) ∧
  sw.switchId ∉ s.activeIndex ∧
  ∃ payload, s.blobs ("dms:release:" ++ sw.switchId) =
    some (BlobVal.release
      { type := "dms_release"
        switchId := sw.switchId
        senderPubkey := sw.senderPubkey
        recipientUsername := sw.recipientUsername
        encryptedMessage := payload
        triggeredAt := now }, 90 * 24 * 60 * 60)

-- ─── Concrete states used by witnesses and counterexamples ───

/-- A three-guardian distribute payload. -/
def exGuardians : List GuardianInput :=
  [{ pubkey := "g1", encryptedShare := "c1", shareIndex := 0 },
   { pubkey := "g2", encryptedShare := "c2", shareIndex := 1 },
   { pubkey := "g3", encryptedShare := "c3", shareIndex := 2 }]

/-- Store after a 2-of-3 distribute for owner `owner`. -/
def exStore0 : RecoveryStore :=
  distributeShares emptyRecovery "owner" 2 exGuardians 0

/-- Store after a recovery session `sid` was requested for all three
guardians. -/
def exStore1 : RecoveryStore :=
  match createSession exStore0 "owner" "eph" ["g1", "g2", "g3"] "sid" 0 with
  | .ok (_, st) => st
  | .error _ => exStore0

/-- Store after guardian `g1` approved session `sid`. -/
def exStore2 : RecoveryStore :=
  match approveSession exStore1 "sid" "g1" "r1" with
  | .ok (_, st) => st
  | .error _ => exStore1

/-- Store after guardians `g1` and `g2` approved session `sid` (the session
is now ready). -/
def exStore3 : RecoveryStore :=
  match approveSession exStore2 "sid" "g2" "r2" with
  | .ok (_, st) => st
  | .error _ => exStore2

/-- A pending 2-of-3 session record used by the C1 witness. -/
def exSession : RecoverySession :=
  { sessionId := "sid"
    ownerPubkey := "owner"
    ephemeralPubkey := "eph"
    status := .pending
    approvals := 0
    threshold := 2
    guardianPubkeys := ["g1", "g2", "g3"]
    createdAt := 0 }

/-- A store holding only the pending session `sid`. -/
def exC1Store : RecoveryStore :=
  { emptyRecovery with sessions := upd1 emptyRecovery.sessions "sid" (some exSession) }

/-- A distribute payload with a duplicated shareIndex (0 appears twice and
index 1 is missing). -/
def exDupGuardians : List GuardianInput :=
  [{ pubkey := "gA", encryptedShare := "cA", shareIndex := 0 },
   { pubkey := "gB", encryptedShare := "cB", shareIndex := 0 }]

/-- A one-hour dead man's switch request from `alice` to `bob`. -/
def exInput : DMSSwitchInput :=
  { senderPubkey := "alice"
    recipientUsername := "bob"
    arweaveTxId := "ar123"
    intervalHours := 1 }

/-- The switch record created from `exInput` at time 0 under id `s1`. -/
def exSwitch1 : DMSSwitch := (createSwitch emptyDMS exInput "s1" 0).1

/-- The store holding only the freshly created switch `s1`. -/
def exDMS1 : DMSStore := (createSwitch emptyDMS exInput "s1" 0).2

/-- `exDMS1` after the sweep marked `s1` triggered at time 5. -/
def exDMS1T : DMSStore := markTriggered exDMS1 "s1" 5

/-- A recipient resolver that knows every username. -/
def exResolve : String → Bool := fun _ => true

/-- An external blob fetch that always returns the ciphertext `ct`. -/
def exFetch : String → Option String := fun _ => some "ct"

-- ─── Basic lemmas about the store primitives ───

theorem upd1_same {α : Type} (f : String → Option α) (k : String) (v : Option α) :
    upd1 f k v k = v := by
  simp [upd1]

theorem upd1_ne {α : Type} {f : String → Option α} {x k : String} (h : x ≠ k)
    {v : Option α} : upd1 f k v x = f x := by
  simp [upd1, h]

theorem upd2_same {α : Type} (f : String → String → Option α) (a b : String)
    (v : Option α) : upd2 f a b v a b = v := by
  simp [upd2]

theorem upd2_ne {α : Type} {f : String → String → Option α} {x y a b : String}
    (h : ¬(x = a ∧ y = b)) {v : Option α} : upd2 f a b v x y = f x y := by
  simp only [upd2, if_neg h]

theorem mem_sadd_self (l : List String) (x : String) : x ∈ saddList l x := by
  unfold saddList
  split
  · rename_i h; simpa using h
  · simp

theorem mem_sadd_of_mem {l : List String} {a : String} (h : a ∈ l)
    (x : String) : a ∈ saddList l x := by
  unfold saddList
  split
  · exact h
  · exact List.mem_append_left _ h

theorem not_mem_sadd {l : List String} {a x : String} (h : a ∉ l)
    (hne : a ≠ x) : a ∉ saddList l x := by
  unfold saddList
  split
  · exact h
  · intro hmem
    rcases List.mem_append.mp hmem with h1 | h1
    · exact h h1
    · simp at h1
      exact hne h1

theorem not_mem_srem_self (l : List String) (x : String) :
    x ∉ sremList l x := by
  simp [sremList]

theorem mem_srem {l : List String} {a x : String} (h : a ∈ l) (hne : a ≠ x) :
    a ∈ sremList l x := by
  simp [sremList, h, hne]

theorem mem_of_mem_srem {l : List String} {a x : String}
    (h : a ∈ sremList l x) : a ∈ l :=
  (List.mem_filter.mp h).1

-- ─── Lemmas about the recovery share loops ───

theorem putShares_configs (o : String) (now : Nat) :
    ∀ (l : List GuardianInput) (s : RecoveryStore),
      (putShares o now l s).configs = s.configs := by
  intro l
  induction l with
  | nil => intro s; rfl
  | cons g rest ih => intro s; simpa [putShares] using ih _

theorem putShares_sessions (o : String) (now : Nat) :
    ∀ (l : List GuardianInput) (s : RecoveryStore),
      (putShares o now l s).sessions = s.sessions := by
  intro l
  induction l with
  | nil => intro s; rfl
  | cons g rest ih => intro s; simpa [putShares] using ih _

theorem putShares_sessionShares (o : String) (now : Nat) :
    ∀ (l : List GuardianInput) (s : RecoveryStore),
      (putShares o now l s).sessionShares = s.sessionShares := by
  intro l
  induction l with
  | nil => intro s; rfl
  | cons g rest ih => intro s; simpa [putShares] using ih _

theorem putShares_isSome (o : String) (now : Nat) :
    ∀ (l : List GuardianInput) (s : RecoveryStore) (p : String),
      (s.shares p o).isSome = true →
      ((putShares o now l s).shares p o).isSome = true := by
  intro l
  induction l with
  | nil => intro s p h; exact h
  | cons g rest ih =>
      intro s p h
      apply ih
      by_cases hp : p = g.pubkey
      · simp [upd2, hp]
      · simpa [upd2, hp] using h

theorem putShares_mem_isSome (o : String) (now : Nat) :
    ∀ (l : List GuardianInput) (s : RecoveryStore) (gi : GuardianInput),
      gi ∈ l → ((putShares o now l s).shares gi.pubkey o).isSome = true := by
  intro l
  induction l with
  | nil => intro s gi h; cases h
  | cons g rest ih =>
      intro s gi h
      simp only [putShares]
      rcases List.mem_cons.mp h with h | h
      · subst h
        apply putShares_isSome
        simp [upd2]
      · exact ih _ _ h

theorem delShares_configs (o : String) :
    ∀ (l : List String) (s : RecoveryStore),
      (delShares o l s).configs = s.configs := by
  intro l
  induction l with
  | nil => intro s; rfl
  | cons g rest ih => intro s; simpa [delShares] using ih _

theorem delShares_none (o : String) :
    ∀ (l : List String) (s : RecoveryStore) (p : String),
      s.shares p o = none → (delShares o l s).shares p o = none := by
  intro l
  induction l with
  | nil => intro s p h; exact h
  | cons g rest ih =>
      intro s p h
      apply ih
      by_cases hp : p = g
      · simp [upd2, hp]
      · simpa [upd2, hp] using h

theorem delShares_mem (o : String) :
    ∀ (l : List String) (s : RecoveryStore) (p : String),
      p ∈ l → (delShares o l s).shares p o = none := by
  intro l
  induction l with
  | nil => intro s p h; cases h
  | cons g rest ih =>
      intro s p h
      simp only [delShares]
      rcases List.mem_cons.mp h with h | h
      · subst h
        apply delShares_none
        simp [upd2]
      · exact ih _ _ h

-- ─── C7: distribute followed by revoke ───

/-- C7: For every owner `o` (a non-empty pubkey), `distribute(o, t, g)`
followed by `revoke(o)` leaves `getRecoveryConfig(o) = null` and deletes the
share of every guardian in `g`; and `revoke(o)` when no config exists for
`o` changes nothing in the store while the route still reports success. -/
theorem c7_distribute_then_revoke (st : RecoveryStore) (o : String) (t : Nat)
    (g : List GuardianInput) (now : Nat) (sig : String) (ts : Nat)
    (ho : o ≠ "") (hsig : sig ≠ "") (hts : ts ≠ 0) :
    getRecoveryConfig (revokeShares (distributeShares st o t g now) o) o = none ∧
    (∀ gi ∈ g, (revokeShares (distributeShares st o t g now) o).shares gi.pubkey o = none) ∧
    (st.configs o = none →
      (revokeShares st o).configs = st.configs ∧
      (revokeShares st o).shares = st.shares ∧
      (revokeShares st o).sessions = st.sessions ∧
      (revokeShares st o).sessionShares = st.sessionShares) ∧
    (revokeRoute st o sig ts true).1 = 200 := by
  have hcfg :
      getRecoveryConfig (distributeShares st o t g now) o =
        some { ownerPubkey := o, threshold := t,
               guardianPubkeys := g.map (fun x => x.pubkey), createdAt := now } := by
    simp [getRecoveryConfig, distributeShares, putShares_configs, upd1_same, ho]
  refine ⟨?_, ?_, ?_, ?_⟩
  · simp [revokeShares, getRecoveryConfig, upd1_same]
  · intro gi hgi
    simp only [revokeShares, hcfg]
    exact delShares_mem o _ _ _ (List.mem_map_of_mem (fun x => x.pubkey) hgi)
  · intro hnone
    have hget : getRecoveryConfig st o = none := by
      simp [getRecoveryConfig, hnone]
    refine ⟨?_, ?_, ?_, ?_⟩
    · simp only [revokeShares, hget]
      funext x
      by_cases hx : x = o
      · subst hx; simp [upd1_same, hnone]
      · simp [upd1_ne hx]
    · simp [revokeShares, hget]
    · simp [revokeShares, hget]
    · simp [revokeShares, hget]
  · simp [revokeRoute, ho, hsig, hts]

/-- Witness for C7 at a concrete input. -/
theorem c7_witness :
    ("owner" : String) ≠ "" ∧
    getRecoveryConfig (revokeShares (distributeShares emptyRecovery "owner" 2 exGuardians 0) "owner") "owner" = none ∧
    (revokeShares (distributeShares emptyRecovery "owner" 2 exGuardians 0) "owner").shares "g2" "owner" = none := by
  have h := c7_distribute_then_revoke emptyRecovery "owner" 2 exGuardians 0 "sig" 1
    (by decide) (by decide) (by decide)
  exact ⟨by decide, h.1, h.2.1 (exGuardians.get ⟨1, by decide⟩) (by decide)⟩

-- ─── C6: shareIndex values are not validated ───

/-- C6 counterexample: a signed distribute request whose two guardians both
carry shareIndex 0 (duplicates, not covering 0..1) is accepted with HTTP 200
and both shares are stored, contradicting the claim that it is rejected with
a 400 ValidationError and not stored. -/
theorem c6_counterexample :
    (distributeRoute emptyRecovery "o" 2 exDupGuardians "sig" 1 true 0).1 = 200 ∧
    ((distributeRoute emptyRecovery "o" 2 exDupGuardians "sig" 1 true 0).2.shares "gA" "o").isSome = true ∧
    ((distributeRoute emptyRecovery "o" 2 exDupGuardians "sig" 1 true 0).2.shares "gB" "o").isSome = true := by
  exact ⟨by decide, by decide, by decide⟩

/-- C6 amended: the distribute route performs no validation of shareIndex
values. A signed request passing the other checks (non-empty sender,
2 ≤ threshold ≤ n ≤ 10) is accepted with HTTP 200 and a share is stored for
every listed guardian, whether or not the shareIndex values are distinct or
cover 0..n−1. -/
theorem c6_no_shareIndex_validation (st : RecoveryStore) (sender : String)
    (threshold : Nat) (guardians : List GuardianInput) (sig : String)
    (ts now : Nat) (hsender : sender ≠ "") (hth : 2 ≤ threshold)
    (hlen : threshold ≤ guardians.length) (hmax : guardians.length ≤ 10)
    (hsig : sig ≠ "") (hts : ts ≠ 0) :
    (distributeRoute st sender threshold guardians sig ts true now).1 = 200 ∧
    ∀ gi ∈ guardians,
      ((distributeRoute st sender threshold guardians sig ts true now).2.shares
        gi.pubkey sender).isSome = true := by
  have hth0 : threshold ≠ 0 := by omega
  have hth2 : ¬ threshold < 2 := by omega
  have hlen' : ¬ guardians.length < threshold := by omega
  have hmax' : ¬ guardians.length > 10 := by omega
  constructor
  · simp [distributeRoute, hsender, hth0, hth2, hlen', hmax', hsig, hts]
  · intro gi hgi
    simp only [distributeRoute, hsender, hth0, hth2, hlen', hmax', hsig, hts]
    simp only [distributeShares]
    exact putShares_mem_isSome _ _ _ _ _ hgi

/-- Witness for C6 at a concrete input: duplicate shareIndex values pass. -/
theorem c6_witness :
    (2 ≤ 2 ∧ 2 ≤ exDupGuardians.length ∧ exDupGuardians.length ≤ 10) ∧
    (distributeRoute emptyRecovery "own" 2 exDupGuardians "sg" 3 true 0).1 = 200 := by
  have h := c6_no_shareIndex_validation emptyRecovery "own" 2 exDupGuardians "sg" 3 0
    (by decide) (by decide) (by decide) (by decide) (by decide) (by decide)
  exact ⟨⟨by decide, by decide, by decide⟩, h.1⟩

-- ─── Lemmas about approveSession ───

theorem getSession_some {st : RecoveryStore} {sid : String}
    {session : RecoverySession} (hs : st.sessions sid = some session)
    (hsid : session.sessionId = sid) (hne : sid ≠ "") :
    getSession st sid = some session := by
  unfold getSession
  rw [hs]
  simp [hsid, hne]

theorem approveSession_step (st : RecoveryStore) (sid g r : String)
    (session : RecoverySession) (hs : st.sessions sid = some session)
    (hsid : session.sessionId = sid) (hne : sid ≠ "")
    (hstat : session.status = .pending)
    (hcont : session.guardianPubkeys.contains g = true)
    (hsh : truthyStr (st.sessionShares sid g) = false) :
    approveSession st sid g r =
      .ok ({ approved := true, approvalsReceived := session.approvals + 1,
             thresholdRequired := session.threshold },
        { st with
            sessionShares := upd2 st.sessionShares sid g (some r),
            sessions := upd1 st.sessions sid
              (some (if session.approvals + 1 ≥ session.threshold then
                       { session with approvals := session.approvals + 1,
                                      status := .ready }
                     else
                       { session with approvals := session.approvals + 1 })) }) := by
  have hmem : g ∈ session.guardianPubkeys := by simpa using hcont
  unfold approveSession
  rw [getSession_some hs hsid hne]
  simp [hstat, hcont, hsh, hmem]

theorem approveSession_not_pending (st : RecoveryStore) (sid g r : String)
    (session : RecoverySession) (hs : st.sessions sid = some session)
    (hsid : session.sessionId = sid) (hne : sid ≠ "")
    (hstat : session.status ≠ .pending) :
    approveSession st sid g r =
      .error ("Session is " ++ sessionStatusStr session.status) := by
  unfold approveSession
  rw [getSession_some hs hsid hne]
  simp [hstat]

-- ─── C1: a third approval after the session is ready ───

/-- C1 counterexample: in the literal 2-of-3 scenario (distribute, request,
approvals by `g1` and `g2`), the later approve call by the third requested
guardian `g3` does not succeed — `approveSession` rejects it with
`Session is ready` — and `getReleasedShares` returns only the two stored
shares, not all three. -/
theorem c1_counterexample :
    approveSession exStore3 "sid" "g3" "r3" = .error "Session is ready" ∧
    getReleasedShares exStore3 "sid" = .ok [("g1", "r1"), ("g2", "r2")] := by
  exact ⟨rfl, rfl⟩

/-- C1 amended: for a pending session with threshold 2 and three distinct
requested guardians, after two of them approve, the session is ready and a
later approve call by the third guardian fails with the `Session is ready`
error (it does not succeed); `getReleasedShares` then returns exactly the
two re-encrypted shares of the guardians that approved. -/
theorem c1_third_approval_rejected (st : RecoveryStore)
    (sid g1 g2 g3 r1 r2 r3 own eph : String) (ca : Nat)
    (hs : st.sessions sid = some
      { sessionId := sid, ownerPubkey := own, ephemeralPubkey := eph,
        status := .pending, approvals := 0, threshold := 2,
        guardianPubkeys := [g1, g2, g3], createdAt := ca })
    (hne : sid ≠ "")
    (h12 : g1 ≠ g2) (h23 : g2 ≠ g3) (h13 : g1 ≠ g3)
    (hr1 : r1 ≠ "") (hr2 : r2 ≠ "")
    (hsh1 : st.sessionShares sid g1 = none)
    (hsh2 : st.sessionShares sid g2 = none)
    (hsh3 : st.sessionShares sid g3 = none) :
    (∃ res1 st1, approveSession st sid g1 r1 = .ok (res1, st1)) ∧
    ∀ res1 st1, approveSession st sid g1 r1 = .ok (res1, st1) →
      res1 = { approved := true, approvalsReceived := 1, thresholdRequired := 2 } ∧
      (∃ res2 st2, approveSession st1 sid g2 r2 = .ok (res2, st2)) ∧
      ∀ res2 st2, approveSession st1 sid g2 r2 = .ok (res2, st2) →
        res2 = { approved := true, approvalsReceived := 2, thresholdRequired := 2 } ∧
        approveSession st2 sid g3 r3 = .error "Session is ready" ∧
        getReleasedShares st2 sid = .ok [(g1, r1), (g2, r2)] := by
  have e1 : approveSession st sid g1 r1 =
      .ok ({ approved := true, approvalsReceived := 1, thresholdRequired := 2 },
        { st with
            sessionShares := upd2 st.sessionShares sid g1 (some r1),
            sessions := upd1 st.sessions sid (some
              { sessionId := sid, ownerPubkey := own, ephemeralPubkey := eph,
                status := .pending, approvals := 1, threshold := 2,
                guardianPubkeys := [g1, g2, g3], createdAt := ca }) }) := by
    simp [approveSession, getSession, hs, hne, hsh1, truthyStr]
  refine ⟨⟨_, _, e1⟩, ?_⟩
  intro res1 st1 h1
  rw [e1] at h1
  simp only [Except.ok.injEq, Prod.mk.injEq] at h1
  obtain ⟨hres1, hst1⟩ := h1
  subst hst1
  refine ⟨hres1.symm, ?_, ?_⟩ <;>
  · have e2 : approveSession
        ({ st with
            sessionShares := upd2 st.sessionShares sid g1 (some r1),
            sessions := upd1 st.sessions sid (some
              { sessionId := sid, ownerPubkey := own, ephemeralPubkey := eph,
                status := .pending, approvals := 1, threshold := 2,
                guardianPubkeys := [g1, g2, g3], createdAt := ca }) }) sid g2 r2 =
        .ok ({ approved := true, approvalsReceived := 2, thresholdRequired := 2 },
          { st with
              sessionShares := upd2 (upd2 st.sessionShares sid g1 (some r1)) sid g2 (some r2),
              sessions := upd1 (upd1 st.sessions sid (some
                { sessionId := sid, ownerPubkey := own, ephemeralPubkey := eph,
                  status := .pending, approvals := 1, threshold := 2,
                  guardianPubkeys := [g1, g2, g3], createdAt := ca })) sid (some
                { sessionId := sid, ownerPubkey := own, ephemeralPubkey := eph,
                  status := .ready, approvals := 2, threshold := 2,
                  guardianPubkeys := [g1, g2, g3], createdAt := ca }) }) := by
      simp [approveSession, getSession, upd1, upd2, hne, hsh2, truthyStr, Ne.symm h12]
    first
    | exact ⟨_, _, e2⟩
    | · intro res2 st2 h2
        rw [e2] at h2
        simp only [Except.ok.injEq, Prod.mk.injEq] at h2
        obtain ⟨hres2, hst2⟩ := h2
        subst hst2
        refine ⟨hres2.symm, ?_, ?_⟩
        · simp [approveSession, getSession, upd1, hne, sessionStatusStr]
        · simp [getReleasedShares, getSession, upd1, upd2, hne, hsh3, hr1, hr2,
            h12, h23, h13, Ne.symm h12, Ne.symm h23, Ne.symm h13,
            List.filterMap_cons]

/-- Witness for C1 at a concrete input. -/
theorem c1_witness :
    exC1Store.sessions "sid" = some
      { sessionId := "sid", ownerPubkey := "owner", ephemeralPubkey := "eph",
        status := .pending, approvals := 0, threshold := 2,
        guardianPubkeys := ["g1", "g2", "g3"], createdAt := 0 } ∧
    ((∃ res1 st1, approveSession exC1Store "sid" "g1" "r1" = .ok (res1, st1)) ∧
      ∀ res1 st1, approveSession exC1Store "sid" "g1" "r1" = .ok (res1, st1) →
        res1 = { approved := true, approvalsReceived := 1, thresholdRequired := 2 } ∧
        (∃ res2 st2, approveSession st1 "sid" "g2" "r2" = .ok (res2, st2)) ∧
        ∀ res2 st2, approveSession st1 "sid" "g2" "r2" = .ok (res2, st2) →
          res2 = { approved := true, approvalsReceived := 2, thresholdRequired := 2 } ∧
          approveSession st2 "sid" "g3" "r3" = .error "Session is ready" ∧
          getReleasedShares st2 "sid" = .ok [("g1", "r1"), ("g2", "r2")]) := by
  refine ⟨rfl, ?_⟩
  exact c1_third_approval_rejected exC1Store "sid" "g1" "g2" "g3" "r1" "r2" "r3"
    "owner" "eph" 0 rfl (by decide) (by decide) (by decide) (by decide)
    (by decide) (by decide) rfl rfl rfl

-- ─── C5: approve by a guardian outside the session ───

/-- C5: a signed approve for an existing pending session by a guardian not in
the session's `requestedGuardians` is rejected by the service with the
message `Not a valid guardian for this session`, but the route's
case-sensitive `includes` mapping misses that capitalized message, so the
route answers HTTP 500, not the specified 403. -/
theorem c5_unauthorized_guardian_gets_500 :
    approveSession exStore1 "sid" "g4" "r" =
      .error "Not a valid guardian for this session" ∧
    approveErrorStatus "Not a valid guardian for this session" = 500 ∧
    jsIncludes "Not a valid guardian for this session" "not a valid guardian" = false ∧
    (approveRoute exStore1 "sid" "g4" "r" "sig" 5 true).1 = 500 := by
  exact ⟨rfl, by decide, by decide, rfl⟩

-- ─── Lemmas about getSwitch and well-keyed stores ───

theorem getSwitch_mem_some {st : DMSStore} {id : String} {sw : DMSSwitch}
    (h : getSwitch st id = some sw) : st.switches id = some sw := by
  cases hx : st.switches id with
  | none =>
      have hdef : getSwitch st id = none := by unfold getSwitch; rw [hx]
      rw [hdef] at h
      cases h
  | some sw' =>
      have hdef : getSwitch st id = (if sw'.switchId = "" then none else some sw') := by
        unfold getSwitch
        rw [hx]
      rw [hdef] at h
      by_cases he : sw'.switchId = ""
      · rw [if_pos he] at h; cases h
      · rw [if_neg he] at h
        cases h
        rfl

theorem getSwitch_eq {st : DMSStore} (hWK : WellKeyed st) (id : String) :
    getSwitch st id = st.switches id := by
  unfold getSwitch
  cases hx : st.switches id with
  | none => rfl
  | some sw => simp [(hWK _ _ hx).2]

-- ─── C10: cancel performs no status check ───

/-- C10: under a valid signature, cancel succeeds (HTTP 200) exactly when the
switch record exists and its `senderPubkey` equals the signer — the status is
never consulted, so an already-triggered (or cancelled) switch is cancelled
again: its status is overwritten to cancelled and its id is removed from the
owner's index, making it disappear from the owner's list; otherwise the
route answers 404. -/
theorem c10_cancel_no_status_check (st : DMSStore) (id requester sig : String)
    (ts : Nat) (hWK : WellKeyed st) (hreq : requester ≠ "") (hsig : sig ≠ "")
    (hts : ts ≠ 0) :
    ((cancelRoute st id requester sig ts true).1 = 200 ↔
      ∃ sw, getSwitch st id = some sw ∧ sw.senderPubkey = requester) ∧
    ((cancelRoute st id requester sig ts true).1 = 200 ∨
      (cancelRoute st id requester sig ts true).1 = 404) ∧
    ∀ sw, getSwitch st id = some sw → sw.senderPubkey = requester →
      (cancelRoute st id requester sig ts true).2.switches id =
        some { sw with status := .cancelled } ∧
      id ∉ (cancelRoute st id requester sig ts true).2.userIndex requester ∧
      ∀ w ∈ getUserSwitches (cancelRoute st id requester sig ts true).2 requester,
        w.switchId ≠ id := by
  cases hg : getSwitch st id with
  | none =>
      have hc : cancelSwitch st id requester = (false, st) := by
        simp [cancelSwitch, hg]
      refine ⟨?_, ?_, ?_⟩
      · simp [cancelRoute, hc, hreq, hsig, hts, hg]
      · simp [cancelRoute, hc, hreq, hsig, hts]
      · intro sw hsw; cases hsw
  | some sw =>
      by_cases hsp : sw.senderPubkey = requester
      · have hrec : st.switches id = some sw := getSwitch_mem_some hg
        have hc1 : (cancelSwitch st id requester).1 = true := by
          simp [cancelSwitch, hg, hsp]
        have hr1 : (cancelRoute st id requester sig ts true).1 = 200 := by
          simp [cancelRoute, hc1, hreq, hsig, hts]
        have hr2 : (cancelRoute st id requester sig ts true).2 =
            (cancelSwitch st id requester).2 := by
          simp [cancelRoute, hc1, hreq, hsig, hts]
        refine ⟨?_, Or.inl hr1, ?_⟩
        · simp [hr1, hsp]
        · intro sw2 hsw2 hsp2
          cases hsw2
          rw [hr2]
          refine ⟨?_, ?_, ?_⟩
          · simp [cancelSwitch, hg, hsp, upd1_same, hrec]
          · simp [cancelSwitch, hg, hsp, sremList]
          · intro w hw
            rcases List.mem_filterMap.mp hw with ⟨id2, hid2, hgw⟩
            have hui : (cancelSwitch st id requester).2.userIndex requester =
                sremList (st.userIndex requester) id := by
              simp [cancelSwitch, hg, hsp]
            rw [hui] at hid2
            have hne2 : id2 ≠ id := by
              intro hcontra
              subst hcontra
              exact not_mem_srem_self _ _ hid2
            have hmem := getSwitch_mem_some hgw
            have hswk : (cancelSwitch st id requester).2.switches id2 =
                st.switches id2 := by
              simp only [cancelSwitch, hg]
              rw [if_neg (by simp [hsp])]
              simp [upd1_ne hne2]
            rw [hswk] at hmem
            rw [(hWK _ _ hmem).1]
            exact hne2
      · have hc : cancelSwitch st id requester = (false, st) := by
          simp [cancelSwitch, hg, hsp]
        refine ⟨?_, ?_, ?_⟩
        · simp [cancelRoute, hc, hreq, hsig, hts]
          exact hsp
        · simp [cancelRoute, hc, hreq, hsig, hts]
        · intro sw2 hsw2 hsp2
          cases hsw2
          exact absurd hsp2 hsp

/-- Witness for C10 at a concrete input: a switch already triggered is
cancelled again by its owner; the 200 answer, the overwritten status and the
removal from the owner's index are all observable. -/
theorem c10_witness :
    exDMS1T.switches "s1" =
      some { exSwitch1 with status := .triggered, triggeredAt := some 5 } ∧
    (cancelRoute exDMS1T "s1" "alice" "sig" 7 true).1 = 200 ∧
    (cancelRoute exDMS1T "s1" "alice" "sig" 7 true).2.switches "s1" =
      some { exSwitch1 with status := .cancelled, triggeredAt := some 5 } ∧
    "s1" ∉ (cancelRoute exDMS1T "s1" "alice" "sig" 7 true).2.userIndex "alice" := by
  have hWK : WellKeyed exDMS1T := by
    intro k sw h
    by_cases hk : k = "s1"
    · subst hk
      have hv : exDMS1T.switches "s1" =
          some { exSwitch1 with status := .triggered, triggeredAt := some 5 } := by
        decide
      rw [hv] at h
      cases h
      exact ⟨by decide, by decide⟩
    · simp [exDMS1T, markTriggered, exDMS1, createSwitch, emptyDMS, upd1, hk] at h
  have h := c10_cancel_no_status_check exDMS1T "s1" "alice" "sig" 7 hWK
    (by decide) (by decide) (by decide)
  refine ⟨by decide, ?_, ?_, ?_⟩
  · exact h.1.mpr ⟨{ exSwitch1 with status := .triggered, triggeredAt := some 5 },
      by decide, by decide⟩
  · exact (h.2.2 { exSwitch1 with status := .triggered, triggeredAt := some 5 }
      (by decide) (by decide)).1
  · exact (h.2.2 { exSwitch1 with status := .triggered, triggeredAt := some 5 }
      (by decide) (by decide)).2.1

-- ─── C8: create followed by cancel ───

/-- C8 counterexample: after create and cancel by the owner, the cancel
succeeds, the status is cancelled and the id is gone from both indices, but
the owner's list is empty — the switch is NOT retained in the owner's
history, because `cancelSwitch` also removes the id from the user index. -/
theorem c8_counterexample :
    (cancelSwitch exDMS1 "s1" "alice").1 = true ∧
    (cancelSwitch exDMS1 "s1" "alice").2.switches "s1" =
      some { exSwitch1 with status := .cancelled } ∧
    "s1" ∉ (cancelSwitch exDMS1 "s1" "alice").2.activeIndex ∧
    "s1" ∉ (cancelSwitch exDMS1 "s1" "alice").2.userIndex "alice" ∧
    getUserSwitches (cancelSwitch exDMS1 "s1" "alice").2 "alice" = [] := by
  exact ⟨by decide, by decide, by decide, by decide, by decide⟩

/-- C8 amended: create followed by cancel by the owner yields status
cancelled and the id absent from both the active index and the user index;
consequently the owner's list does not retain the switch at all (only
triggered switches stay in the history; cancelled ones disappear). -/
theorem c8_create_then_cancel (st : DMSStore) (input : DMSSwitchInput)
    (id : String) (now : Nat) (hWK : WellKeyed st) (hid : id ≠ "") :
    (cancelSwitch (createSwitch st input id now).2 id input.senderPubkey).1 = true ∧
    (cancelSwitch (createSwitch st input id now).2 id input.senderPubkey).2.switches id =
      some { (createSwitch st input id now).1 with status := .cancelled } ∧
    id ∉ (cancelSwitch (createSwitch st input id now).2 id input.senderPubkey).2.activeIndex ∧
    id ∉ (cancelSwitch (createSwitch st input id now).2 id
      input.senderPubkey).2.userIndex input.senderPubkey ∧
    ∀ w ∈ getUserSwitches
        (cancelSwitch (createSwitch st input id now).2 id input.senderPubkey).2
        input.senderPubkey, w.switchId ≠ id := by
  have hg1 : getSwitch (createSwitch st input id now).2 id =
      some (createSwitch st input id now).1 := by
    simp [createSwitch, getSwitch, upd1, hid]
  refine ⟨?_, ?_, ?_, ?_, ?_⟩
  · simp only [cancelSwitch]
    rw [hg1]
    simp [createSwitch]
  · simp only [cancelSwitch]
    rw [hg1]
    simp [createSwitch, upd1]
  · simp only [cancelSwitch]
    rw [hg1]
    simp [createSwitch, sremList]
  · simp only [cancelSwitch]
    rw [hg1]
    simp [createSwitch, sremList]
  · intro w hw
    rcases List.mem_filterMap.mp hw with ⟨id2, hid2, hgw⟩
    have hui : (cancelSwitch (createSwitch st input id now).2 id
        input.senderPubkey).2.userIndex input.senderPubkey =
        sremList (saddList (st.userIndex input.senderPubkey) id) id := by
      simp only [cancelSwitch]
      rw [hg1]
      simp [createSwitch]
    rw [hui] at hid2
    have hne2 : id2 ≠ id := by
      intro hcontra
      subst hcontra
      exact not_mem_srem_self _ _ hid2
    have hmem := getSwitch_mem_some hgw
    have hswk : (cancelSwitch (createSwitch st input id now).2 id
        input.senderPubkey).2.switches id2 = st.switches id2 := by
      simp only [cancelSwitch]
      rw [hg1]
      simp [createSwitch, upd1_ne hne2]
    rw [hswk] at hmem
    rw [(hWK _ _ hmem).1]
    exact hne2

/-- Witness for C8 at a concrete input. -/
theorem c8_witness :
    ("s1" : String) ≠ "" ∧
    (cancelSwitch (createSwitch emptyDMS exInput "s1" 0).2 "s1" "alice").1 = true ∧
    getUserSwitches (cancelSwitch (createSwitch emptyDMS exInput "s1" 0).2
      "s1" "alice").2 "alice" = [] := by
  have h := c8_create_then_cancel emptyDMS exInput "s1" 0
    (by intro k sw hk; exact Option.noConfusion hk) (by decide)
  refine ⟨by decide, h.1, by decide⟩

-- ─── Lemmas about the check-in loop ───

theorem bumpGo_userIndex (now : Nat) :
    ∀ (l : List DMSSwitch) (s : DMSStore),
      (bumpGo now l s).userIndex = s.userIndex := by
  intro l
  induction l with
  | nil => intro s; rfl
  | cons sw rest ih => intro s; simpa [bumpGo] using ih _

theorem bumpGo_activeIndex (now : Nat) :
    ∀ (l : List DMSSwitch) (s : DMSStore),
      (bumpGo now l s).activeIndex = s.activeIndex := by
  intro l
  induction l with
  | nil => intro s; rfl
  | cons sw rest ih => intro s; simpa [bumpGo] using ih _

theorem bumpGo_blobs (now : Nat) :
    ∀ (l : List DMSSwitch) (s : DMSStore),
      (bumpGo now l s).blobs = s.blobs := by
  intro l
  induction l with
  | nil => intro s; rfl
  | cons sw rest ih => intro s; simpa [bumpGo] using ih _

theorem bumpGo_shape (now : Nat) :
    ∀ (l : List DMSSwitch) (s : DMSStore) (k : String),
      (bumpGo now l s).switches k = s.switches k ∨
      ∃ d, (bumpGo now l s).switches k =
        (s.switches k).map (fun w => { w with nextDeadline := d }) := by
  intro l
  induction l with
  | nil => intro s k; exact Or.inl rfl
  | cons sw rest ih =>
      intro s k
      simp only [bumpGo]
      by_cases hk : k = sw.switchId
      · subst hk
        have hSk : ({ s with
            switches := upd1 s.switches sw.switchId
              ((s.switches sw.switchId).map
                (fun w => { w with nextDeadline := now + sw.intervalHours * 3600000 })) } :
              DMSStore).switches sw.switchId =
            (s.switches sw.switchId).map
              (fun w => { w with nextDeadline := now + sw.intervalHours * 3600000 }) := by
          simp [upd1_same]
        rcases ih ({ s with
            switches := upd1 s.switches sw.switchId
              ((s.switches sw.switchId).map
                (fun w => { w with nextDeadline := now + sw.intervalHours * 3600000 })) })
          sw.switchId with h | ⟨d, h⟩
        · rw [hSk] at h
          exact Or.inr ⟨now + sw.intervalHours * 3600000, h⟩
        · rw [hSk] at h
          refine Or.inr ⟨d, ?_⟩
          rw [h]
          cases s.switches sw.switchId <;> rfl
      · have hSk : ({ s with
            switches := upd1 s.switches sw.switchId
              ((s.switches sw.switchId).map
                (fun w => { w with nextDeadline := now + sw.intervalHours * 3600000 })) } :
              DMSStore).switches k = s.switches k := by
          simp [upd1_ne hk]
        rcases ih ({ s with
            switches := upd1 s.switches sw.switchId
              ((s.switches sw.switchId).map
                (fun w => { w with nextDeadline := now + sw.intervalHours * 3600000 })) }) k
          with h | ⟨d, h⟩
        · rw [hSk] at h
          exact Or.inl h
        · rw [hSk] at h
          exact Or.inr ⟨d, h⟩

-- ─── C3: the claimed index invariant and the one the code maintains ───

/-- C3 counterexample: the invariant as the spec states it (triggered and
cancelled switches in neither index) holds in the one-switch state after
create but is destroyed by `markTriggered`, which removes the id only from
the active set: the triggered switch is still in the owner's user index. -/
theorem c3_counterexample :
    IndexInvariant exDMS1 ∧ ¬ IndexInvariant exDMS1T := by
  constructor
  · intro k sw h
    by_cases hk : k = "s1"
    · subst hk
      have hv : exDMS1.switches "s1" = some exSwitch1 := by decide
      rw [hv] at h
      cases h
      exact ⟨fun _ => ⟨by decide, by decide⟩, fun hna => absurd (by decide) hna⟩
    · simp [exDMS1, createSwitch, emptyDMS, upd1, hk] at h
  · intro h
    have hv : exDMS1T.switches "s1" =
        some { exSwitch1 with status := .triggered, triggeredAt := some 5 } := by
      decide
    have h2 := (h "s1" _ hv).2 (by decide)
    exact h2.2 (by decide)

/-- C3 amended: the invariant the DMS operations actually preserve — every
active switch's id is in both the owner's user index and the global active
index, and every non-active switch's id is absent from the active index;
cancelled switches additionally leave the user index (see `cancelSwitch`),
while triggered switches remain in it as the owner's history. -/
theorem c3_index_invariant_preserved (st : DMSStore)
    (h : IndexInvariantAmended st) :
    (∀ input id now, IndexInvariantAmended (createSwitch st input id now).2) ∧
    (∀ pk now, IndexInvariantAmended (refreshDeadlines st pk now).2) ∧
    (∀ id requester, IndexInvariantAmended (cancelSwitch st id requester).2) ∧
    (∀ id now, IndexInvariantAmended (markTriggered st id now)) := by
  refine ⟨?_, ?_, ?_, ?_⟩
  -- createSwitch
  · intro input id now k sw hk
    simp only [createSwitch] at hk ⊢
    by_cases hkid : k = id
    · subst hkid
      rw [upd1_same] at hk
      cases hk
      refine ⟨fun _ => ⟨mem_sadd_self _ _, ?_⟩, fun hna => absurd rfl hna⟩
      simpa using mem_sadd_self (st.userIndex input.senderPubkey) k
    · rw [upd1_ne hkid] at hk
      have hI := h k sw hk
      refine ⟨fun hact => ⟨mem_sadd_of_mem (hI.1 hact).1 _, ?_⟩,
        fun hna => not_mem_sadd (hI.2 hna) hkid⟩
      by_cases hp : sw.senderPubkey = input.senderPubkey
      · rw [if_pos hp]
        exact mem_sadd_of_mem (hp ▸ (hI.1 hact).2) _
      · rw [if_neg hp]
        exact (hI.1 hact).2
  -- refreshDeadlines
  · intro pk now k sw hk
    simp only [refreshDeadlines] at hk ⊢
    rw [bumpGo_userIndex, bumpGo_activeIndex]
    rcases bumpGo_shape now _ st k with hsh | ⟨d, hsh⟩
    · rw [hsh] at hk
      exact h k sw hk
    · rw [hsh] at hk
      rcases Option.map_eq_some'.mp hk with ⟨w, hw, hmap⟩
      have hI := h k w hw
      subst hmap
      exact hI
  -- cancelSwitch
  · intro id requester k sw hk
    cases hg : getSwitch st id with
    | none =>
        have hst : (cancelSwitch st id requester).2 = st := by
          simp [cancelSwitch, hg]
        rw [hst] at hk ⊢
        exact h k sw hk
    | some sw0 =>
        by_cases hsp : sw0.senderPubkey = requester
        · have hred : cancelSwitch st id requester =
              (true,
                { st with
                    switches := upd1 st.switches id
                      ((st.switches id).map (fun w => { w with status := .cancelled }))
                    activeIndex := sremList st.activeIndex id
                    userIndex := fun p =>
                      if p = requester then sremList (st.userIndex p) id
                      else st.userIndex p }) := by
            simp [cancelSwitch, hg, hsp]
          rw [hred] at hk ⊢
          simp only at hk ⊢
          by_cases hkid : k = id
          · subst hkid
            rw [upd1_same] at hk
            rcases Option.map_eq_some'.mp hk with ⟨w, _, hmap⟩
            subst hmap
            refine ⟨fun hact => absurd hact (by simp), fun _ => not_mem_srem_self _ _⟩
          · rw [upd1_ne hkid] at hk
            have hI := h k sw hk
            refine ⟨fun hact => ⟨mem_srem (hI.1 hact).1 hkid, ?_⟩,
              fun hna hmem => (hI.2 hna) (mem_of_mem_srem hmem)⟩
            by_cases hp : sw.senderPubkey = requester
            · rw [if_pos hp]
              exact mem_srem (hp ▸ (hI.1 hact).2) hkid
            · rw [if_neg hp]
              exact (hI.1 hact).2
        · have hst : (cancelSwitch st id requester).2 = st := by
            simp [cancelSwitch, hg, hsp]
          rw [hst] at hk ⊢
          exact h k sw hk
  -- markTriggered
  · intro id now k sw hk
    simp only [markTriggered] at hk ⊢
    by_cases hkid : k = id
    · subst hkid
      rw [upd1_same] at hk
      rcases Option.map_eq_some'.mp hk with ⟨w, _, hmap⟩
      subst hmap
      refine ⟨fun hact => absurd hact (by simp), fun _ => not_mem_srem_self _ _⟩
    · rw [upd1_ne hkid] at hk
      have hI := h k sw hk
      refine ⟨fun hact => ⟨mem_srem (hI.1 hact).1 hkid, (hI.1 hact).2⟩,
        fun hna hmem => (hI.2 hna) (mem_of_mem_srem hmem)⟩

/-- Witness for C3 at a concrete input: the empty store satisfies the
amended invariant, and each operation keeps it. -/
theorem c3_witness :
    IndexInvariantAmended (createSwitch emptyDMS exInput "s1" 0).2 ∧
    IndexInvariantAmended (markTriggered emptyDMS "s1" 5) := by
  have h := c3_index_invariant_preserved emptyDMS
    (fun k sw hk => Option.noConfusion hk)
  exact ⟨h.1 exInput "s1" 0, h.2.2.2 "s1" 5⟩

-- ─── Lemmas towards the check-in theorem ───

theorem filterMap_getSwitch_ids_sublist (st : DMSStore) (hWK : WellKeyed st) :
    ∀ l : List String,
      ((l.filterMap (getSwitch st)).map (fun s => s.switchId)).Sublist l := by
  intro l
  induction l with
  | nil => simp
  | cons id rest ih =>
      cases hg : getSwitch st id with
      | none =>
          rw [List.filterMap_cons_none hg]
          exact ih.cons id
      | some sw =>
          rw [List.filterMap_cons_some hg]
          have hid : sw.switchId = id := (hWK _ _ (getSwitch_mem_some hg)).1
          rw [List.map_cons, hid]
          exact ih.cons₂ id

theorem active_ids_nodup (st : DMSStore) (pk : String) (hWK : WellKeyed st)
    (hND : (st.userIndex pk).Nodup) :
    (((getUserSwitches st pk).filter
      (fun s => s.status == DMSStatus.active)).map (fun s => s.switchId)).Nodup := by
  have h1 : (((getUserSwitches st pk).filter
      (fun s => s.status == DMSStatus.active)).map (fun s => s.switchId)).Sublist
      ((getUserSwitches st pk).map (fun s => s.switchId)) :=
    (List.filter_sublist _).map _
  have h2 := filterMap_getSwitch_ids_sublist st hWK (st.userIndex pk)
  exact ((h1.trans h2).nodup) hND

theorem bumpGo_not_mem (now : Nat) :
    ∀ (l : List DMSSwitch) (s : DMSStore) (k : String),
      k ∉ l.map (fun s => s.switchId) →
      (bumpGo now l s).switches k = s.switches k := by
  intro l
  induction l with
  | nil => intro s k _; rfl
  | cons sw rest ih =>
      intro s k hk
      rw [List.map_cons] at hk
      simp only [bumpGo]
      rw [ih _ _ (fun hmem => hk (List.mem_cons_of_mem _ hmem))]
      exact upd1_ne (fun hkk => hk (by rw [hkk]; exact List.mem_cons_self _ _))

theorem bumpGo_mem (now : Nat) :
    ∀ (l : List DMSSwitch) (s : DMSStore),
      (l.map (fun s => s.switchId)).Nodup →
      ∀ sw ∈ l,
        (bumpGo now l s).switches sw.switchId =
          (s.switches sw.switchId).map
            (fun w => { w with nextDeadline := now + sw.intervalHours * 3600000 }) := by
  intro l
  induction l with
  | nil => intro s _ sw h; cases h
  | cons sw0 rest ih =>
      intro s hnd sw hmem
      rw [List.map_cons] at hnd
      have hhead : sw0.switchId ∉ rest.map (fun s => s.switchId) :=
        (List.nodup_cons.mp hnd).1
      have htail : (rest.map (fun s => s.switchId)).Nodup :=
        (List.nodup_cons.mp hnd).2
      rcases List.mem_cons.mp hmem with h | h
      · subst h
        simp only [bumpGo]
        rw [bumpGo_not_mem now rest _ _ hhead]
        simp [upd1_same]
      · have hne : sw.switchId ≠ sw0.switchId := by
          intro hcontra
          exact hhead (hcontra ▸ List.mem_map_of_mem (fun s => s.switchId) h)
        simp only [bumpGo]
        rw [ih _ htail sw h]
        simp [upd1_ne hne]

theorem latestGo_acc (now : Nat) :
    ∀ (l : List DMSSwitch) (a : Nat),
      ∃ m, latestGo now l (some a) = some m ∧ a ≤ m := by
  intro l
  induction l with
  | nil => intro a; exact ⟨a, rfl, Nat.le_refl a⟩
  | cons sw rest ih =>
      intro a
      simp only [latestGo]
      by_cases hgt : now + sw.intervalHours * 3600000 > a
      · rw [if_pos hgt]
        rcases ih (now + sw.intervalHours * 3600000) with ⟨m, hm, hle⟩
        exact ⟨m, hm, Nat.le_trans (Nat.le_of_lt hgt) hle⟩
      · rw [if_neg hgt]
        exact ih a

theorem latestGo_mem_le (now : Nat) :
    ∀ (l : List DMSSwitch) (acc : Option Nat) (d : Nat),
      d ∈ l.map (fun s => now + s.intervalHours * 3600000) →
      ∃ m, latestGo now l acc = some m ∧ d ≤ m := by
  intro l
  induction l with
  | nil => intro acc d h; cases h
  | cons sw rest ih =>
      intro acc d hd
      rw [List.map_cons] at hd
      rcases List.mem_cons.mp hd with h | h
      · subst h
        cases acc with
        | none =>
            simp only [latestGo]
            exact latestGo_acc now rest _
        | some a =>
            simp only [latestGo]
            by_cases hgt : now + sw.intervalHours * 3600000 > a
            · rw [if_pos hgt]
              exact latestGo_acc now rest _
            · rw [if_neg hgt]
              rcases latestGo_acc now rest a with ⟨m, hm, hle⟩
              exact ⟨m, hm, Nat.le_trans (Nat.le_of_not_lt hgt) hle⟩
      · cases acc with
        | none => simp only [latestGo]; exact ih _ _ h
        | some a => simp only [latestGo]; exact ih _ _ h

theorem latestGo_result_mem (now : Nat) :
    ∀ (l : List DMSSwitch) (acc : Option Nat) (m : Nat),
      latestGo now l acc = some m →
      m ∈ l.map (fun s => now + s.intervalHours * 3600000) ∨ acc = some m := by
  intro l
  induction l with
  | nil => intro acc m h; exact Or.inr h
  | cons sw rest ih =>
      intro acc m h
      rw [List.map_cons]
      cases acc with
      | none =>
          simp only [latestGo] at h
          rcases ih _ _ h with h2 | h2
          · exact Or.inl (List.mem_cons_of_mem _ h2)
          · cases h2
            exact Or.inl (List.mem_cons_self _ _)
      | some a =>
          simp only [latestGo] at h
          by_cases hgt : now + sw.intervalHours * 3600000 > a
          · rw [if_pos hgt] at h
            rcases ih _ _ h with h2 | h2
            · exact Or.inl (List.mem_cons_of_mem _ h2)
            · cases h2
              exact Or.inl (List.mem_cons_self _ _)
          · rw [if_neg hgt] at h
            rcases ih _ _ h with h2 | h2
            · exact Or.inl (List.mem_cons_of_mem _ h2)
            · exact Or.inr h2

theorem active_count_eq (st : DMSStore) (hWK : WellKeyed st) :
    ∀ l : List String,
      ((l.filterMap (getSwitch st)).filter
        (fun s => s.status == DMSStatus.active)).length =
      (l.filter (fun id =>
        match st.switches id with
        | some sw => sw.status == DMSStatus.active
        | none => false)).length := by
  intro l
  induction l with
  | nil => rfl
  | cons id rest ih =>
      cases hx : st.switches id with
      | none =>
          have hg : getSwitch st id = none := by rw [getSwitch_eq hWK, hx]
          rw [List.filterMap_cons_none hg]
          rw [List.filter_cons]
          rw [hx]
          simpa using ih
      | some sw =>
          have hg : getSwitch st id = some sw := by rw [getSwitch_eq hWK, hx]
          rw [List.filterMap_cons_some hg]
          rw [List.filter_cons, List.filter_cons]
          rw [hx]
          by_cases hact : sw.status == DMSStatus.active
          · simp only [hact, cond_true, if_pos]
            simp [hact, ih]
          · simp only at hact
            simp [hact, ih]

-- ─── C4: check-in bumps every active switch by its own interval ───

/-- C4: after a signed check-in by owner `pk` at time `now`, every switch in
the owner's index whose record is active has its deadline rewritten to `now`
plus its own interval; non-active records are untouched; the reported
`switchCount` is the number of active switches; the reported `nextDeadline`
is the latest among the bumped deadlines (absent exactly when no switch was
bumped); and a user with no switches still succeeds with count 0. -/
theorem c4_checkin_bumps_deadlines (st : DMSStore) (pk : String) (now : Nat)
    (hWK : WellKeyed st) (hND : (st.userIndex pk).Nodup) :
    (∀ id ∈ st.userIndex pk, ∀ sw, st.switches id = some sw →
      sw.status = .active →
      (refreshDeadlines st pk now).2.switches id =
        some { sw with nextDeadline := now + sw.intervalHours * 3600000 }) ∧
    (∀ id, (∀ sw, st.switches id = some sw → sw.status ≠ .active) →
      (refreshDeadlines st pk now).2.switches id = st.switches id) ∧
    ((refreshDeadlines st pk now).1.count =
      ((st.userIndex pk).filter (fun id =>
        match st.switches id with
        | some sw => sw.status == DMSStatus.active
        | none => false)).length) ∧
    ((getUserSwitches st pk).filter (fun s => s.status == DMSStatus.active) = [] →
      (refreshDeadlines st pk now).1.nextDeadline = none) ∧
    (∀ d ∈ ((getUserSwitches st pk).filter
        (fun s => s.status == DMSStatus.active)).map
        (fun s => now + s.intervalHours * 3600000),
      ∃ m, (refreshDeadlines st pk now).1.nextDeadline = some m ∧ d ≤ m) ∧
    (∀ m, (refreshDeadlines st pk now).1.nextDeadline = some m →
      m ∈ ((getUserSwitches st pk).filter
        (fun s => s.status == DMSStatus.active)).map
        (fun s => now + s.intervalHours * 3600000)) ∧
    (st.userIndex pk = [] → (refreshDeadlines st pk now).1.count = 0) := by
  have hnodup := active_ids_nodup st pk hWK hND
  refine ⟨?_, ?_, ?_, ?_, ?_, ?_, ?_⟩
  · intro id hid sw hsw hact
    have hg : getSwitch st id = some sw := by rw [getSwitch_eq hWK, hsw]
    have hmem : sw ∈ getUserSwitches st pk :=
      List.mem_filterMap.mpr ⟨id, hid, hg⟩
    have hmem2 : sw ∈ (getUserSwitches st pk).filter
        (fun s => s.status == DMSStatus.active) :=
      List.mem_filter.mpr ⟨hmem, by simp [hact]⟩
    have hb := bumpGo_mem now _ st hnodup sw hmem2
    have hswid : sw.switchId = id := (hWK _ _ hsw).1
    rw [hswid] at hb
    simp only [refreshDeadlines]
    rw [hb, hsw]
    rfl
  · intro id hnav
    simp only [refreshDeadlines]
    apply bumpGo_not_mem
    intro hmem
    rcases List.mem_map.mp hmem with ⟨sw, hsw, hswid⟩
    have hact := (List.mem_filter.mp hsw).2
    rcases List.mem_filterMap.mp (List.mem_filter.mp hsw).1 with ⟨id2, _, hg⟩
    have hrec := getSwitch_mem_some hg
    have hid2 : sw.switchId = id2 := (hWK _ _ hrec).1
    rw [← hswid, hid2] at hnav
    exact hnav sw hrec (by simpa using hact)
  · simp only [refreshDeadlines]
    exact active_count_eq st hWK (st.userIndex pk)
  · intro hempty
    simp only [refreshDeadlines, hempty]
    rfl
  · intro d hd
    simp only [refreshDeadlines]
    exact latestGo_mem_le now _ none d hd
  · intro m hm
    simp only [refreshDeadlines] at hm
    rcases latestGo_result_mem now _ none m hm with h | h
    · exact h
    · cases h
  · intro hempty
    simp [refreshDeadlines, getUserSwitches, hempty]

/-- Witness for C4 at a concrete input: the single active one-hour switch of
`alice` gets its deadline rewritten to 7 + 3600000 on a check-in at time 7,
with count 1 and nextDeadline 7 + 3600000. -/
theorem c4_witness :
    (exDMS1.userIndex "alice").Nodup ∧
    (refreshDeadlines exDMS1 "alice" 7).2.switches "s1" =
      some { exSwitch1 with nextDeadline := 7 + 1 * 3600000 } ∧
    (refreshDeadlines exDMS1 "alice" 7).1.count = 1 := by
  have hWK : WellKeyed exDMS1 := by
    intro k sw h
    by_cases hk : k = "s1"
    · subst hk
      have hv : exDMS1.switches "s1" = some exSwitch1 := by decide
      rw [hv] at h
      cases h
      exact ⟨by decide, by decide⟩
    · simp [exDMS1, createSwitch, emptyDMS, upd1, hk] at h
  have h := c4_checkin_bumps_deadlines exDMS1 "alice" 7 hWK (by decide)
  refine ⟨by decide, ?_, ?_⟩
  · have hb := h.1 "s1" (by decide) exSwitch1 (by decide) (by decide)
    simpa using hb
  · rw [h.2.2.1]
    decide

-- ─── String key lemmas ───

theorem string_append_left_cancel {p a b : String} (h : p ++ a = p ++ b) :
    a = b := by
  have hd : p.data ++ a.data = p.data ++ b.data := congrArg String.data h
  have hab := List.append_cancel_left hd
  cases a
  cases b
  exact congrArg String.mk hab

theorem string_append_left_ne {p a b : String} (h : a ≠ b) :
    p ++ a ≠ p ++ b :=
  fun hc => h (string_append_left_cancel hc)

theorem jsStartsWith_local_append (fid : String) :
    jsStartsWith ("local:" ++ fid) "local:" = true := by
  unfold jsStartsWith
  have : ("local:" ++ fid).data = "local:".data ++ fid.data := rfl
  rw [this]
  exact List.isPrefixOf_iff_prefix.mpr ⟨fid.data, rfl⟩

theorem jsDropLocal_append (fid : String) :
    jsDropLocal ("local:" ++ fid) = fid := by
  unfold jsDropLocal
  rw [jsStartsWith_local_append]
  simp only [if_true]
  have hdata : ("local:" ++ fid).data = "local:".data ++ fid.data := rfl
  have hlen : ("local:".data).length = 6 := by decide
  cases fid with
  | mk d =>
      show String.mk ((("local:" ++ ⟨d⟩ : String).data).drop 6) = ⟨d⟩
      rw [show (("local:" ++ (⟨d⟩ : String)).data) = "local:".data ++ d from rfl]
      rw [← hlen]
      rw [List.drop_left]

-- ─── Branch equations for the sweep ───

theorem godsGo_cons_none {s : DMSStore} {id : String} (now : Nat)
    (ids : List String) (hg : getSwitch s id = none) :
    godsGo now (id :: ids) s =
      godsGo now ids { s with activeIndex := sremList s.activeIndex id } := by
  simp [godsGo, hg]

theorem godsGo_cons_inactive {s : DMSStore} {id : String} {sw : DMSSwitch}
    (now : Nat) (ids : List String) (hg : getSwitch s id = some sw)
    (hs : sw.status ≠ .active) :
    godsGo now (id :: ids) s =
      godsGo now ids { s with activeIndex := sremList s.activeIndex id } := by
  simp [godsGo, hg, hs]

theorem godsGo_cons_overdue {s : DMSStore} {id : String} {sw : DMSSwitch}
    (now : Nat) (ids : List String) (hg : getSwitch s id = some sw)
    (hs : sw.status = .active) (hd : sw.nextDeadline < now) :
    godsGo now (id :: ids) s =
      (sw :: (godsGo now ids s).1, (godsGo now ids s).2) := by
  simp [godsGo, hg, hs, hd]

theorem godsGo_cons_current {s : DMSStore} {id : String} {sw : DMSSwitch}
    (now : Nat) (ids : List String) (hg : getSwitch s id = some sw)
    (hs : sw.status = .active) (hd : ¬ sw.nextDeadline < now) :
    godsGo now (id :: ids) s = godsGo now ids s := by
  simp [godsGo, hg, hs, hd]

theorem godsGo_switches (now : Nat) :
    ∀ (l : List String) (s : DMSStore),
      (godsGo now l s).2.switches = s.switches := by
  intro l
  induction l with
  | nil => intro s; rfl
  | cons id ids ih =>
      intro s
      cases hg : getSwitch s id with
      | none => rw [godsGo_cons_none now ids hg]; exact ih _
      | some sw =>
          by_cases hs : sw.status = .active
          · by_cases hd : sw.nextDeadline < now
            · rw [godsGo_cons_overdue now ids hg hs hd]; exact ih _
            · rw [godsGo_cons_current now ids hg hs hd]; exact ih _
          · rw [godsGo_cons_inactive now ids hg hs]; exact ih _

theorem godsGo_userIndex (now : Nat) :
    ∀ (l : List String) (s : DMSStore),
      (godsGo now l s).2.userIndex = s.userIndex := by
  intro l
  induction l with
  | nil => intro s; rfl
  | cons id ids ih =>
      intro s
      cases hg : getSwitch s id with
      | none => rw [godsGo_cons_none now ids hg]; exact ih _
      | some sw =>
          by_cases hs : sw.status = .active
          · by_cases hd : sw.nextDeadline < now
            · rw [godsGo_cons_overdue now ids hg hs hd]; exact ih _
            · rw [godsGo_cons_current now ids hg hs hd]; exact ih _
          · rw [godsGo_cons_inactive now ids hg hs]; exact ih _

theorem godsGo_blobs (now : Nat) :
    ∀ (l : List String) (s : DMSStore),
      (godsGo now l s).2.blobs = s.blobs := by
  intro l
  induction l with
  | nil => intro s; rfl
  | cons id ids ih =>
      intro s
      cases hg : getSwitch s id with
      | none => rw [godsGo_cons_none now ids hg]; exact ih _
      | some sw =>
          by_cases hs : sw.status = .active
          · by_cases hd : sw.nextDeadline < now
            · rw [godsGo_cons_overdue now ids hg hs hd]; exact ih _
            · rw [godsGo_cons_current now ids hg hs hd]; exact ih _
          · rw [godsGo_cons_inactive now ids hg hs]; exact ih _

theorem godsGo_elem (now : Nat) :
    ∀ (l : List String) (s : DMSStore),
      ∀ sw ∈ (godsGo now l s).1,
        ∃ id ∈ l, getSwitch s id = some sw ∧ sw.status = .active ∧
          sw.nextDeadline < now := by
  intro l
  induction l with
  | nil => intro s sw h; cases h
  | cons id ids ih =>
      intro s sw hmem
      cases hg : getSwitch s id with
      | none =>
          rw [godsGo_cons_none now ids hg] at hmem
          rcases ih _ sw hmem with ⟨id2, hid2, hgw, hrest⟩
          exact ⟨id2, List.mem_cons_of_mem _ hid2, hgw, hrest⟩
      | some sw0 =>
          by_cases hs : sw0.status = .active
          · by_cases hd : sw0.nextDeadline < now
            · rw [godsGo_cons_overdue now ids hg hs hd] at hmem
              rcases List.mem_cons.mp hmem with h | h
              · subst h
                exact ⟨id, List.mem_cons_self _ _, hg, hs, hd⟩
              · rcases ih _ sw h with ⟨id2, hid2, hgw, hrest⟩
                exact ⟨id2, List.mem_cons_of_mem _ hid2, hgw, hrest⟩
            · rw [godsGo_cons_current now ids hg hs hd] at hmem
              rcases ih _ sw hmem with ⟨id2, hid2, hgw, hrest⟩
              exact ⟨id2, List.mem_cons_of_mem _ hid2, hgw, hrest⟩
          · rw [godsGo_cons_inactive now ids hg hs] at hmem
            rcases ih _ sw hmem with ⟨id2, hid2, hgw, hrest⟩
            exact ⟨id2, List.mem_cons_of_mem _ hid2, hgw, hrest⟩

theorem godsGo_ids_sublist (now : Nat) :
    ∀ (l : List String) (s : DMSStore), WellKeyed s →
      (((godsGo now l s).1).map (fun x => x.switchId)).Sublist l := by
  intro l
  induction l with
  | nil => intro s _; simp [godsGo]
  | cons id ids ih =>
      intro s hWK
      cases hg : getSwitch s id with
      | none =>
          rw [godsGo_cons_none now ids hg]
          exact (ih { s with activeIndex := sremList s.activeIndex id } hWK).cons id
      | some sw0 =>
          by_cases hs : sw0.status = .active
          · by_cases hd : sw0.nextDeadline < now
            · rw [godsGo_cons_overdue now ids hg hs hd]
              rw [List.map_cons, (hWK _ _ (getSwitch_mem_some hg)).1]
              exact (ih s hWK).cons₂ id
            · rw [godsGo_cons_current now ids hg hs hd]
              exact (ih s hWK).cons id
          · rw [godsGo_cons_inactive now ids hg hs]
            exact (ih { s with activeIndex := sremList s.activeIndex id } hWK).cons id

-- ─── Branch equations and invariants for the per-switch sweep loop ───

theorem sweepGo_cons_noresolve {ru : String → Bool} {ef : String → Option String}
    {now : Nat} {sw : DMSSwitch} {rest : List DMSSwitch} {s : DMSStore}
    (hru : ru sw.recipientUsername = false) :
    sweepGo ru ef now (sw :: rest) s =
      ((sweepGo ru ef now rest s).1,
        (sw.switchId ++ ": recipient not found") :: (sweepGo ru ef now rest s).2.1,
        (sweepGo ru ef now rest s).2.2) := by
  simp [sweepGo, hru]

theorem sweepGo_cons_nopayload {ru : String → Bool} {ef : String → Option String}
    {now : Nat} {sw : DMSSwitch} {rest : List DMSSwitch} {s : DMSStore}
    (hru : ru sw.recipientUsername = true)
    (hf : fetchPayload s ef sw.arweaveTxId = none) :
    sweepGo ru ef now (sw :: rest) s =
      ((sweepGo ru ef now rest s).1,
        (sw.switchId ++ ": could not retrieve encrypted payload") ::
          (sweepGo ru ef now rest s).2.1,
        (sweepGo ru ef now rest s).2.2) := by
  simp [sweepGo, hru, hf]

theorem sweepGo_cons_emptypayload {ru : String → Bool} {ef : String → Option String}
    {now : Nat} {sw : DMSSwitch} {rest : List DMSSwitch} {s : DMSStore}
    (hru : ru sw.recipientUsername = true)
    (hf : fetchPayload s ef sw.arweaveTxId = some "") :
    sweepGo ru ef now (sw :: rest) s =
      ((sweepGo ru ef now rest s).1,
        (sw.switchId ++ ": could not retrieve encrypted payload") ::
          (sweepGo ru ef now rest s).2.1,
        (sweepGo ru ef now rest s).2.2) := by
  simp [sweepGo, hru, hf]

theorem sweepGo_cons_process {ru : String → Bool} {ef : String → Option String}
    {now : Nat} {sw : DMSSwitch} {rest : List DMSSwitch} {s : DMSStore}
    {payload : String} (hru : ru sw.recipientUsername = true)
    (hf : fetchPayload s ef sw.arweaveTxId = some payload) (hp : payload ≠ "") :
    sweepGo ru ef now (sw :: rest) s =
      (sw.switchId ::
          (sweepGo ru ef now rest
            (markTriggered (storeRelease s sw payload now) sw.switchId now)).1,
        (sweepGo ru ef now rest
          (markTriggered (storeRelease s sw payload now) sw.switchId now)).2.1,
        (sweepGo ru ef now rest
          (markTriggered (storeRelease s sw payload now) sw.switchId now)).2.2) := by
  simp [sweepGo, hru, hf, hp]

theorem sweepGood_step {s : DMSStore} {sw0 sw : DMSSwitch} {payload : String}
    {now : Nat} (hne : sw.switchId ≠ sw0.switchId) (hg : SweepGood s sw now) :
    SweepGood (markTriggered (storeRelease s sw0 payload now) sw0.switchId now)
      sw now := by
  obtain ⟨⟨w, hw, hwst⟩, hact, ⟨pl, hbl⟩⟩ := hg
  refine ⟨⟨w, ?_, hwst⟩, ?_, ⟨pl, ?_⟩⟩
  · simp only [markTriggered, storeRelease]
    rw [upd1_ne hne]
    exact hw
  · simp only [markTriggered, storeRelease]
    intro hmem
    exact hact (mem_of_mem_srem hmem)
  · simp only [markTriggered, storeRelease]
    rw [upd1_ne (string_append_left_ne hne)]
    exact hbl

theorem sweepGo_preserves_good (ru : String → Bool) (ef : String → Option String)
    (now : Nat) :
    ∀ (l : List DMSSwitch) (s : DMSStore) (sw : DMSSwitch),
      sw.switchId ∉ l.map (fun x => x.switchId) →
      SweepGood s sw now →
      SweepGood (sweepGo ru ef now l s).2.2 sw now := by
  intro l
  induction l with
  | nil => intro s sw _ hg; exact hg
  | cons sw0 rest ih =>
      intro s sw hnm hg
      rw [List.map_cons] at hnm
      have hnm1 : sw.switchId ≠ sw0.switchId :=
        fun hc => hnm (hc ▸ List.mem_cons_self _ _)
      have hnm2 : sw.switchId ∉ rest.map (fun x => x.switchId) :=
        fun hc => hnm (List.mem_cons_of_mem _ hc)
      cases hru : ru sw0.recipientUsername with
      | false =>
          rw [sweepGo_cons_noresolve hru]
          exact ih _ _ hnm2 hg
      | true =>
          cases hf : fetchPayload s ef sw0.arweaveTxId with
          | none =>
              rw [sweepGo_cons_nopayload hru hf]
              exact ih _ _ hnm2 hg
          | some payload =>
              by_cases hp : payload = ""
              · subst hp
                rw [sweepGo_cons_emptypayload hru hf]
                exact ih _ _ hnm2 hg
              · rw [sweepGo_cons_process hru hf hp]
                exact ih _ _ hnm2 (sweepGood_step hnm1 hg)

theorem sweepGo_good (ru : String → Bool) (ef : String → Option String)
    (now : Nat) :
    ∀ (l : List DMSSwitch) (s : DMSStore),
      (l.map (fun x => x.switchId)).Nodup →
      (∀ sw ∈ l, ∃ w, s.switches sw.switchId = some w) →
      ∀ id ∈ (sweepGo ru ef now l s).1,
        ∃ sw ∈ l, sw.switchId = id ∧
          SweepGood (sweepGo ru ef now l s).2.2 sw now := by
  intro l
  induction l with
  | nil => intro s _ _ id h; cases h
  | cons sw0 rest ih =>
      intro s hnd hrec id hid
      rw [List.map_cons] at hnd
      have hhead : sw0.switchId ∉ rest.map (fun x => x.switchId) :=
        (List.nodup_cons.mp hnd).1
      have htail : (rest.map (fun x => x.switchId)).Nodup :=
        (List.nodup_cons.mp hnd).2
      have hrec0 := hrec sw0 (List.mem_cons_self _ _)
      have hrecR : ∀ sw ∈ rest, ∃ w, s.switches sw.switchId = some w :=
        fun sw h => hrec sw (List.mem_cons_of_mem _ h)
      cases hru : ru sw0.recipientUsername with
      | false =>
          rw [sweepGo_cons_noresolve hru] at hid ⊢
          rcases ih s htail hrecR id hid with ⟨sw, hsw, hswid, hgood⟩
          exact ⟨sw, List.mem_cons_of_mem _ hsw, hswid, hgood⟩
      | true =>
          cases hf : fetchPayload s ef sw0.arweaveTxId with
          | none =>
              rw [sweepGo_cons_nopayload hru hf] at hid ⊢
              rcases ih s htail hrecR id hid with ⟨sw, hsw, hswid, hgood⟩
              exact ⟨sw, List.mem_cons_of_mem _ hsw, hswid, hgood⟩
          | some payload =>
              by_cases hp : payload = ""
              · subst hp
                rw [sweepGo_cons_emptypayload hru hf] at hid ⊢
                rcases ih s htail hrecR id hid with ⟨sw, hsw, hswid, hgood⟩
                exact ⟨sw, List.mem_cons_of_mem _ hsw, hswid, hgood⟩
              · rw [sweepGo_cons_process hru hf hp] at hid ⊢
                obtain ⟨w0, hw0⟩ := hrec0
                have hgood0 : SweepGood
                    (markTriggered (storeRelease s sw0 payload now)
                      sw0.switchId now) sw0 now := by
                  refine ⟨⟨{ w0 with status := .triggered, triggeredAt := some now },
                    ?_, rfl⟩, ?_, ⟨payload, ?_⟩⟩
                  · simp only [markTriggered]
                    rw [upd1_same]
                    rw [show (storeRelease s sw0 payload now).switches = s.switches
                      from rfl]
                    rw [hw0]
                    rfl
                  · simp only [markTriggered, storeRelease]
                    exact not_mem_srem_self _ _
                  · simp only [markTriggered, storeRelease]
                    rw [upd1_same]
                rcases List.mem_cons.mp hid with h | h
                · subst h
                  refine ⟨sw0, List.mem_cons_self _ _, rfl, ?_⟩
                  exact sweepGo_preserves_good ru ef now rest _ sw0 hhead hgood0
                · have hrecR2 : ∀ sw ∈ rest, ∃ w,
                      (markTriggered (storeRelease s sw0 payload now)
                        sw0.switchId now).switches sw.switchId = some w := by
                    intro sw hsw
                    have hne : sw.switchId ≠ sw0.switchId := by
                      intro hc
                      exact hhead (hc ▸ List.mem_map_of_mem (fun x => x.switchId) hsw)
                    obtain ⟨w, hw⟩ := hrecR sw hsw
                    refine ⟨w, ?_⟩
                    simp only [markTriggered, storeRelease]
                    rw [upd1_ne hne]
                    exact hw
                  rcases ih _ htail hrecR2 id h with ⟨sw, hsw, hswid, hgood⟩
                  exact ⟨sw, List.mem_cons_of_mem _ hsw, hswid, hgood⟩

theorem wellKeyed_of_switches_eq {s s' : DMSStore}
    (h : s'.switches = s.switches) (hWK : WellKeyed s) : WellKeyed s' :=
  fun k sw hk => hWK k sw (h ▸ hk)

-- ─── C2: what the sweep guarantees for processed switches ───

/-- C2: every switch id counted as processed by `POST /process` ends the
sweep with its hash in status triggered, its id absent from the global
active index, and a release record under `dms:release:{id}` holding the
`dms_release` JSON built from the switch's own fields with the 90-day TTL. -/
theorem c2_sweep_processed (st : DMSStore) (resolveUser : String → Bool)
    (extFetch : String → Option String) (now : Nat)
    (hWK : WellKeyed st) (hND : st.activeIndex.Nodup) :
    ∀ id ∈ (processSweep st resolveUser extFetch now).1.processedIds,
      (∃ w, (processSweep st resolveUser extFetch now).2.switches id = some w ∧
        w.status = .triggered) ∧
      id ∉ (processSweep st resolveUser extFetch now).2.activeIndex ∧
      ∃ sw payload, st.switches id = some sw ∧
        (processSweep st resolveUser extFetch now).2.blobs ("dms:release:" ++ id) =
          some (BlobVal.release
            { type := "dms_release", switchId := id,
              senderPubkey := sw.senderPubkey,
              recipientUsername := sw.recipientUsername,
              encryptedMessage := payload, triggeredAt := now },
            90 * 24 * 60 * 60) := by
  intro id hid
  have hS1sw : (getOverdueSwitches st now).2.switches = st.switches :=
    godsGo_switches now st.activeIndex st
  have hnodup : (((getOverdueSwitches st now).1).map (fun x => x.switchId)).Nodup :=
    (godsGo_ids_sublist now st.activeIndex st hWK).nodup hND
  have hrecs : ∀ sw ∈ (getOverdueSwitches st now).1,
      ∃ w, (getOverdueSwitches st now).2.switches sw.switchId = some w := by
    intro sw hsw
    rcases godsGo_elem now st.activeIndex st sw hsw with ⟨id2, _, hg, _, _⟩
    have hrec := getSwitch_mem_some hg
    refine ⟨sw, ?_⟩
    rw [hS1sw, (hWK _ _ hrec).1]
    exact hrec
  have hmain := sweepGo_good resolveUser extFetch now (getOverdueSwitches st now).1
    (getOverdueSwitches st now).2 hnodup hrecs id hid
  rcases hmain with ⟨sw, hswOV, hswid, hgood⟩
  obtain ⟨⟨w, hw, hwst⟩, hact, ⟨payload, hbl⟩⟩ := hgood
  rw [hswid] at hw hact
  refine ⟨⟨w, hw, hwst⟩, hact, ⟨sw, payload, ?_, ?_⟩⟩
  · rcases godsGo_elem now st.activeIndex st sw hswOV with ⟨id2, _, hg, _, _⟩
    have hrec := getSwitch_mem_some hg
    have hid2 : sw.switchId = id2 := (hWK _ _ hrec).1
    rw [← hswid, hid2]
    exact hrec
  · rw [← hswid]
    exact hbl

/-- Witness for C2 at a concrete input: the single overdue switch `s1` is
processed by the sweep at time 5000000 and ends triggered, deindexed, and
with its release record stored. -/
theorem c2_witness :
    exDMS1.activeIndex.Nodup ∧
    "s1" ∈ (processSweep exDMS1 exResolve exFetch 5000000).1.processedIds ∧
    ((∃ w, (processSweep exDMS1 exResolve exFetch 5000000).2.switches "s1" =
        some w ∧ w.status = .triggered) ∧
      "s1" ∉ (processSweep exDMS1 exResolve exFetch 5000000).2.activeIndex ∧
      ∃ sw payload, exDMS1.switches "s1" = some sw ∧
        (processSweep exDMS1 exResolve exFetch 5000000).2.blobs
          ("dms:release:" ++ "s1") =
          some (BlobVal.release
            { type := "dms_release", switchId := "s1",
              senderPubkey := sw.senderPubkey,
              recipientUsername := sw.recipientUsername,
              encryptedMessage := payload, triggeredAt := 5000000 },
            90 * 24 * 60 * 60)) := by
  have hWK : WellKeyed exDMS1 := by
    intro k sw h
    by_cases hk : k = "s1"
    · subst hk
      have hv : exDMS1.switches "s1" = some exSwitch1 := by decide
      rw [hv] at h
      cases h
      exact ⟨by decide, by decide⟩
    · simp [exDMS1, createSwitch, emptyDMS, upd1, hk] at h
  exact ⟨by decide, by decide,
    c2_sweep_processed exDMS1 exResolve exFetch 5000000 hWK (by decide)
      "s1" (by decide)⟩

-- ─── C9: blob-store failure falls back to a local payload ───

/-- C9: when the external upload fails during create (`uploadResult = none`),
the create route still succeeds: the ciphertext is stored locally at
`dms:{fid}` with the 1-year TTL and the switch's handle is `local:{fid}`;
the sweep's payload fetch on that handle returns exactly the stored
ciphertext, the overdue switch is processed, and the release record written
is identical to the one the external-store happy path writes. -/
theorem c9_local_fallback_roundtrip
    (recip ct sender sig fid txId sid : String) (ih ts now1 now2 : Nat)
    (resolveUser : String → Bool) (extFetch : String → Option String)
    (hrecip : recip ≠ "") (hct : ct ≠ "") (hsender : sender ≠ "")
    (hsig : sig ≠ "") (hts : ts ≠ 0)
    (hih1 : 1 ≤ ih) (hih2 : ih ≤ 8760) (hsid : sid ≠ "")
    (hres : resolveUser recip = true)
    (hlate : now1 + ih * 3600000 < now2)
    (hext : extFetch txId = some ct)
    (htx : jsStartsWith txId "local:" = false) :
    (createRoute emptyDMS recip ct ih sender sig ts true true none fid sid now1).1 = 200 ∧
    jsStartsWith ("local:" ++ fid) "local:" = true ∧
    (createRoute emptyDMS recip ct ih sender sig ts true true none fid sid
      now1).2.blobs ("dms:" ++ fid) = some (BlobVal.str ct, 365 * 24 * 60 * 60) ∧
    fetchPayload
      (createRoute emptyDMS recip ct ih sender sig ts true true none fid sid now1).2
      extFetch ("local:" ++ fid) = some ct ∧
    (processSweep
      (createRoute emptyDMS recip ct ih sender sig ts true true none fid sid now1).2
      resolveUser extFetch now2).1.processedIds = [sid] ∧
    (processSweep
      (createRoute emptyDMS recip ct ih sender sig ts true true none fid sid now1).2
      resolveUser extFetch now2).2.blobs ("dms:release:" ++ sid) =
      some (BlobVal.release
        { type := "dms_release", switchId := sid, senderPubkey := sender,
          recipientUsername := recip, encryptedMessage := ct,
          triggeredAt := now2 }, 90 * 24 * 60 * 60) ∧
    (processSweep
      (createRoute emptyDMS recip ct ih sender sig ts true true (some txId) fid sid
        now1).2 resolveUser extFetch now2).2.blobs ("dms:release:" ++ sid) =
    (processSweep
      (createRoute emptyDMS recip ct ih sender sig ts true true none fid sid now1).2
      resolveUser extFetch now2).2.blobs ("dms:release:" ++ sid) := by
  have hihne : ¬ (recip = "" ∨ ct = "" ∨ ih = 0 ∨ sender = "") := by
    simp [hrecip, hct, hsender]
    omega
  have hrange : ¬ (ih < 1 ∨ ih > 8760) := by omega
  have hauth : ¬ (sig = "" ∨ ts = 0) := by simp [hsig, hts]
  have hcF : createRoute emptyDMS recip ct ih sender sig ts true true none fid sid now1 =
      (200, (createSwitch
        { emptyDMS with
            blobs := upd1 emptyDMS.blobs ("dms:" ++ fid)
              (some (BlobVal.str ct, 365 * 24 * 60 * 60)) }
        { senderPubkey := sender, recipientUsername := recip,
          arweaveTxId := "local:" ++ fid, intervalHours := ih } sid now1).2) := by
    simp [createRoute, hihne, hrange, hauth]
    omega
  have hcH : createRoute emptyDMS recip ct ih sender sig ts true true (some txId)
      fid sid now1 =
      (200, (createSwitch emptyDMS
        { senderPubkey := sender, recipientUsername := recip,
          arweaveTxId := txId, intervalHours := ih } sid now1).2) := by
    simp [createRoute, hihne, hrange, hauth]
    omega
  -- facts about the fallback store
  have hblobF : (createSwitch
      { emptyDMS with
          blobs := upd1 emptyDMS.blobs ("dms:" ++ fid)
            (some (BlobVal.str ct, 365 * 24 * 60 * 60)) }
      { senderPubkey := sender, recipientUsername := recip,
        arweaveTxId := "local:" ++ fid, intervalHours := ih } sid
      now1).2.blobs ("dms:" ++ fid) = some (BlobVal.str ct, 365 * 24 * 60 * 60) := by
    simp [createSwitch, upd1_same]
  have hfetchF : fetchPayload (createSwitch
      { emptyDMS with
          blobs := upd1 emptyDMS.blobs ("dms:" ++ fid)
            (some (BlobVal.str ct, 365 * 24 * 60 * 60)) }
      { senderPubkey := sender, recipientUsername := recip,
        arweaveTxId := "local:" ++ fid, intervalHours := ih } sid now1).2
      extFetch ("local:" ++ fid) = some ct := by
    unfold fetchPayload
    rw [jsStartsWith_local_append, jsDropLocal_append]
    simp only [if_true]
    rw [hblobF]
  have hactF : (createSwitch
      { emptyDMS with
          blobs := upd1 emptyDMS.blobs ("dms:" ++ fid)
            (some (BlobVal.str ct, 365 * 24 * 60 * 60)) }
      { senderPubkey := sender, recipientUsername := recip,
        arweaveTxId := "local:" ++ fid, intervalHours := ih } sid
      now1).2.activeIndex = [sid] := by
    simp [createSwitch, emptyDMS, saddList]
  have hgF : getSwitch (createSwitch
      { emptyDMS with
          blobs := upd1 emptyDMS.blobs ("dms:" ++ fid)
            (some (BlobVal.str ct, 365 * 24 * 60 * 60)) }
      { senderPubkey := sender, recipientUsername := recip,
        arweaveTxId := "local:" ++ fid, intervalHours := ih } sid now1).2 sid =
      some (createSwitch
      { emptyDMS with
          blobs := upd1 emptyDMS.blobs ("dms:" ++ fid)
            (some (BlobVal.str ct, 365 * 24 * 60 * 60)) }
      { senderPubkey := sender, recipientUsername := recip,
        arweaveTxId := "local:" ++ fid, intervalHours := ih } sid now1).1 := by
    unfold getSwitch
    simp [createSwitch, upd1, hsid]
  have hovF : getOverdueSwitches (createSwitch
      { emptyDMS with
          blobs := upd1 emptyDMS.blobs ("dms:" ++ fid)
            (some (BlobVal.str ct, 365 * 24 * 60 * 60)) }
      { senderPubkey := sender, recipientUsername := recip,
        arweaveTxId := "local:" ++ fid, intervalHours := ih } sid now1).2 now2 =
      ([(createSwitch
      { emptyDMS with
          blobs := upd1 emptyDMS.blobs ("dms:" ++ fid)
            (some (BlobVal.str ct, 365 * 24 * 60 * 60)) }
      { senderPubkey := sender, recipientUsername := recip,
        arweaveTxId := "local:" ++ fid, intervalHours := ih } sid now1).1],
      (createSwitch
      { emptyDMS with
          blobs := upd1 emptyDMS.blobs ("dms:" ++ fid)
            (some (BlobVal.str ct, 365 * 24 * 60 * 60)) }
      { senderPubkey := sender, recipientUsername := recip,
        arweaveTxId := "local:" ++ fid, intervalHours := ih } sid now1).2) := by
    unfold getOverdueSwitches
    rw [hactF]
    rw [godsGo_cons_overdue now2 [] hgF rfl hlate]
    rfl
  have hswF : sweepGo resolveUser extFetch now2
      [(createSwitch
      { emptyDMS with
          blobs := upd1 emptyDMS.blobs ("dms:" ++ fid)
            (some (BlobVal.str ct, 365 * 24 * 60 * 60)) }
      { senderPubkey := sender, recipientUsername := recip,
        arweaveTxId := "local:" ++ fid, intervalHours := ih } sid now1).1]
      (createSwitch
      { emptyDMS with
          blobs := upd1 emptyDMS.blobs ("dms:" ++ fid)
            (some (BlobVal.str ct, 365 * 24 * 60 * 60)) }
      { senderPubkey := sender, recipientUsername := recip,
        arweaveTxId := "local:" ++ fid, intervalHours := ih } sid now1).2 =
      ([sid], [],
        markTriggered (storeRelease (createSwitch
          { emptyDMS with
              blobs := upd1 emptyDMS.blobs ("dms:" ++ fid)
                (some (BlobVal.str ct, 365 * 24 * 60 * 60)) }
          { senderPubkey := sender, recipientUsername := recip,
            arweaveTxId := "local:" ++ fid, intervalHours := ih } sid now1).2
          (createSwitch
          { emptyDMS with
              blobs := upd1 emptyDMS.blobs ("dms:" ++ fid)
                (some (BlobVal.str ct, 365 * 24 * 60 * 60)) }
          { senderPubkey := sender, recipientUsername := recip,
            arweaveTxId := "local:" ++ fid, intervalHours := ih } sid now1).1
          ct now2) sid now2) := by
    rw [sweepGo_cons_process hres hfetchF hct]
    rfl
  have h5 : (processSweep
      (createRoute emptyDMS recip ct ih sender sig ts true true none fid sid now1).2
      resolveUser extFetch now2).1.processedIds = [sid] := by
    rw [hcF]
    simp only [processSweep]
    rw [hovF]
    rw [hswF]
  have h6F : (processSweep
      (createRoute emptyDMS recip ct ih sender sig ts true true none fid sid now1).2
      resolveUser extFetch now2).2.blobs ("dms:release:" ++ sid) =
      some (BlobVal.release
        { type := "dms_release", switchId := sid, senderPubkey := sender,
          recipientUsername := recip, encryptedMessage := ct,
          triggeredAt := now2 }, 90 * 24 * 60 * 60) := by
    rw [hcF]
    simp only [processSweep]
    rw [hovF]
    rw [hswF]
    simp [markTriggered, storeRelease, createSwitch, upd1_same]
  -- the happy path writes the identical release record
  have hgH : getSwitch (createSwitch emptyDMS
      { senderPubkey := sender, recipientUsername := recip,
        arweaveTxId := txId, intervalHours := ih } sid now1).2 sid =
      some (createSwitch emptyDMS
      { senderPubkey := sender, recipientUsername := recip,
        arweaveTxId := txId, intervalHours := ih } sid now1).1 := by
    unfold getSwitch
    simp [createSwitch, upd1, hsid]
  have hactH : (createSwitch emptyDMS
      { senderPubkey := sender, recipientUsername := recip,
        arweaveTxId := txId, intervalHours := ih } sid now1).2.activeIndex = [sid] := by
    simp [createSwitch, emptyDMS, saddList]
  have hovH : getOverdueSwitches (createSwitch emptyDMS
      { senderPubkey := sender, recipientUsername := recip,
        arweaveTxId := txId, intervalHours := ih } sid now1).2 now2 =
      ([(createSwitch emptyDMS
      { senderPubkey := sender, recipientUsername := recip,
        arweaveTxId := txId, intervalHours := ih } sid now1).1],
      (createSwitch emptyDMS
      { senderPubkey := sender, recipientUsername := recip,
        arweaveTxId := txId, intervalHours := ih } sid now1).2) := by
    unfold getOverdueSwitches
    rw [hactH]
    rw [godsGo_cons_overdue now2 [] hgH rfl hlate]
    rfl
  have hfetchH : fetchPayload (createSwitch emptyDMS
      { senderPubkey := sender, recipientUsername := recip,
        arweaveTxId := txId, intervalHours := ih } sid now1).2
      extFetch txId = some ct := by
    unfold fetchPayload
    rw [htx]
    simp only [Bool.false_eq_true, if_false]
    exact hext
  have hswH : sweepGo resolveUser extFetch now2
      [(createSwitch emptyDMS
      { senderPubkey := sender, recipientUsername := recip,
        arweaveTxId := txId, intervalHours := ih } sid now1).1]
      (createSwitch emptyDMS
      { senderPubkey := sender, recipientUsername := recip,
        arweaveTxId := txId, intervalHours := ih } sid now1).2 =
      ([sid], [],
        markTriggered (storeRelease (createSwitch emptyDMS
          { senderPubkey := sender, recipientUsername := recip,
            arweaveTxId := txId, intervalHours := ih } sid now1).2
          (createSwitch emptyDMS
          { senderPubkey := sender, recipientUsername := recip,
            arweaveTxId := txId, intervalHours := ih } sid now1).1
          ct now2) sid now2) := by
    rw [sweepGo_cons_process hres hfetchH hct]
    rfl
  have h6H : (processSweep
      (createRoute emptyDMS recip ct ih sender sig ts true true (some txId) fid sid
        now1).2 resolveUser extFetch now2).2.blobs ("dms:release:" ++ sid) =
      some (BlobVal.release
        { type := "dms_release", switchId := sid, senderPubkey := sender,
          recipientUsername := recip, encryptedMessage := ct,
          triggeredAt := now2 }, 90 * 24 * 60 * 60) := by
    rw [hcH]
    simp only [processSweep]
    rw [hovH]
    rw [hswH]
    simp [markTriggered, storeRelease, createSwitch, upd1_same]
  refine ⟨by rw [hcF], jsStartsWith_local_append fid, by rw [hcF]; exact hblobF,
    by rw [hcF]; exact hfetchF, h5, h6F, by rw [h6H, h6F]⟩

/-- Witness for C9 at a concrete input. -/
theorem c9_witness :
    jsStartsWith "ar123" "local:" = false ∧
    exFetch "ar123" = some "ct" ∧
    ((createRoute emptyDMS "bob" "ct" 1 "alice" "sg" 3 true true none "f1" "s9" 0).1 = 200 ∧
    jsStartsWith ("local:" ++ "f1") "local:" = true ∧
    (createRoute emptyDMS "bob" "ct" 1 "alice" "sg" 3 true true none "f1" "s9"
      0).2.blobs ("dms:" ++ "f1") = some (BlobVal.str "ct", 365 * 24 * 60 * 60) ∧
    fetchPayload
      (createRoute emptyDMS "bob" "ct" 1 "alice" "sg" 3 true true none "f1" "s9" 0).2
      exFetch ("local:" ++ "f1") = some "ct" ∧
    (processSweep
      (createRoute emptyDMS "bob" "ct" 1 "alice" "sg" 3 true true none "f1" "s9" 0).2
      exResolve exFetch 3600001).1.processedIds = ["s9"] ∧
    (processSweep
      (createRoute emptyDMS "bob" "ct" 1 "alice" "sg" 3 true true none "f1" "s9" 0).2
      exResolve exFetch 3600001).2.blobs ("dms:release:" ++ "s9") =
      some (BlobVal.release
        { type := "dms_release", switchId := "s9", senderPubkey := "alice",
          recipientUsername := "bob", encryptedMessage := "ct",
          triggeredAt := 3600001 }, 90 * 24 * 60 * 60) ∧
    (processSweep
      (createRoute emptyDMS "bob" "ct" 1 "alice" "sg" 3 true true (some "ar123")
        "f1" "s9" 0).2 exResolve exFetch 3600001).2.blobs ("dms:release:" ++ "s9") =
    (processSweep
      (createRoute emptyDMS "bob" "ct" 1 "alice" "sg" 3 true true none "f1" "s9" 0).2
      exResolve exFetch 3600001).2.blobs ("dms:release:" ++ "s9")) := by
  refine ⟨by decide, by decide, ?_⟩
  exact c9_local_fallback_roundtrip "bob" "ct" "alice" "sg" "f1" "ar123" "s9"
    1 3 0 3600001 exResolve exFetch (by decide) (by decide) (by decide)
    (by decide) (by decide) (by decide) (by decide) (by decide) (by decide)
    (by decide) (by decide) (by decide)

end Spec2Proof
